import Mathlib

/-!
Verification of the forecast-distribution and scenario-overlay core of the
deenwise business-planning tool.

The Python modules `modules/revenue.py`, `modules/opex.py`,
`modules/products.py` and `modules/scenario_engine.py` are shallowly embedded
below.  Conventions of the embedding:

* Python floats are modelled as exact rationals (`ℚ`); the arithmetic the code
  performs (`+`, `-`, `*`, `/`, `max`, sums) is ideal arithmetic.
* Python dicts are modelled as ordered association lists with string keys
  (`List (String × α)`), together with `dictInsert` (assignment: replace the
  value in place if the key exists, else append) and `pyDict` (building a dict
  left to right, as a dict comprehension does: a later duplicate key overwrites
  the value of an earlier one).  Dict iteration is iteration over the list.
* `datetime.date` is modelled as `PyDate` (year/month/day naturals compared
  lexicographically).  A real Python `date` always satisfies `PyDate.valid`
  (1 ≤ year ≤ 9999, 1 ≤ month ≤ 12).
* `None`-able values are `Option`s; Python truthiness of an optional dict
  (`if d:`) is "present and non-empty".
* Pandas `DataFrame`s of rows are lists of row structures; `groupby().agg`
  is grouping by key (pandas orders groups by sorted key; the embedding keeps
  first-occurrence order, which changes nothing about the rows themselves);
  `.replace(0, 1)` on a column used as a denominator is the per-row
  `if x = 0 then 1 else x`.
* Display-only columns (`month_nice`, produced by `month_label_to_nice`) are
  omitted from the row structures; they are a formatting concern with no
  effect on any quantity, revenue, cost or profit field.
* Database reads (`fetch_campaign_products`, `fetch_month_weights`,
  `fetch_product_month_weights`, `fetch_size_breakdown`, and the opex-library
  fetches in `scenario_engine.py`) are external collaborators; the fetched
  rows become parameters of the embedded functions.
-/

/- ============================================================
   Python dict model
   ============================================================ -/

/-- Python dict assignment `d[k] = v`: if the key is present its value is
replaced in place (keeping the key's position), otherwise the binding is
appended at the end. -/
def dictInsert {α : Type} (k : String) (v : α) : List (String × α) → List (String × α)
  | [] => [(k, v)]
  | (k', v') :: rest => if k' = k then (k, v) :: rest else (k', v') :: dictInsert k v rest

/-- Python dict built from a list of bindings inserted left to right (the
semantics of a dict comprehension or of repeated assignment): a later binding
for the same key overwrites the earlier value. -/
def pyDict {α : Type} (ps : List (String × α)) : List (String × α) :=
  ps.foldl (fun d p => dictInsert p.1 p.2 d) []

/-- Python `d.get(key)` / `d[key]` lookup. -/
def dictGet {α : Type} : List (String × α) → String → Option α
  | [], _ => none
  | (k, v) :: rest, key => if k = key then some v else dictGet rest key

/-- Python `d.get(key, default)`. -/
def dictGetD {α : Type} (d : List (String × α)) (key : String) (dflt : α) : α :=
  (dictGet d key).getD dflt

/-- Keys of a dict, in order. -/
def dictKeys {α : Type} (d : List (String × α)) : List String := d.map Prod.fst

/-- Python `key in d`. -/
def dictContains {α : Type} (d : List (String × α)) (key : String) : Bool :=
  (dictGet d key).isSome

/-- Python `sum(d.values())` for a numeric dict. -/
def dictValuesSum (d : List (String × ℚ)) : ℚ := (d.map Prod.snd).sum

theorem dictInsert_of_not_mem {α : Type} {k : String} {v : α} :
    ∀ {d : List (String × α)}, k ∉ dictKeys d → dictInsert k v d = d ++ [(k, v)] := by
  intro d
  induction d with
  | nil => intro _; rfl
  | cons p rest ih =>
    intro h
    obtain ⟨k', v'⟩ := p
    simp only [dictKeys, List.map_cons, List.mem_cons] at h
    push_neg at h
    simp only [dictInsert, if_neg (Ne.symm h.1), List.cons_append]
    rw [ih h.2]

theorem pyDict_foldl_of_nodup {α : Type} :
    ∀ (ps : List (String × α)) (acc : List (String × α)),
      (dictKeys acc ++ ps.map Prod.fst).Nodup →
      ps.foldl (fun d p => dictInsert p.1 p.2 d) acc = acc ++ ps := by
  intro ps
  induction ps with
  | nil => intro acc _; simp
  | cons p rest ih =>
    intro acc h
    obtain ⟨k, v⟩ := p
    have hnd := h
    rw [List.nodup_append] at hnd
    have hk : k ∉ dictKeys acc := by
      intro hmem
      exact hnd.2.2 hmem (by simp)
    rw [List.foldl_cons]
    show List.foldl (fun d p => dictInsert p.1 p.2 d) (dictInsert k v acc) rest = _
    rw [dictInsert_of_not_mem hk, ih (acc ++ [(k, v)]) (by
      simp only [dictKeys, List.map_append, List.map_cons, List.map_nil] at h ⊢
      simpa [List.append_assoc] using h)]
    simp

/-- A dict built from bindings with pairwise-distinct keys is those bindings. -/
theorem pyDict_eq_self {α : Type} {ps : List (String × α)}
    (h : (ps.map Prod.fst).Nodup) : pyDict ps = ps := by
  simpa using pyDict_foldl_of_nodup ps [] (by simpa [dictKeys] using h)

theorem dictGet_eq_of_mem_nodup {α : Type} {k : String} {v : α} :
    ∀ {d : List (String × α)}, (k, v) ∈ d → (d.map Prod.fst).Nodup →
      dictGet d k = some v := by
  intro d
  induction d with
  | nil => intro h; simp at h
  | cons p rest ih =>
    intro hmem hnd
    obtain ⟨k', v'⟩ := p
    simp only [List.map_cons, List.nodup_cons] at hnd
    rcases List.mem_cons.mp hmem with heq | htail
    · cases heq
      simp [dictGet]
    · have hk : k' ≠ k := by
        intro hkk
        subst hkk
        exact hnd.1 (List.mem_map.mpr ⟨(k', v), htail, rfl⟩)
      simp only [dictGet, if_neg hk]
      exact ih htail hnd.2

theorem dictGet_eq_none_iff {α : Type} {k : String} :
    ∀ {d : List (String × α)}, dictGet d k = none ↔ k ∉ dictKeys d := by
  intro d
  induction d with
  | nil => simp [dictGet, dictKeys]
  | cons p rest ih =>
    obtain ⟨k', v'⟩ := p
    by_cases hk : k' = k
    · subst hk
      simp [dictGet, dictKeys]
    · simp [dictGet, dictKeys, hk, ih, Ne.symm hk]

/- ============================================================
   Dates and month labels (modules/revenue.py : month_range)
   ============================================================ -/

/-- Model of `datetime.date`: compared lexicographically by
(year, month, day).  A real Python date always satisfies `PyDate.valid`. -/
structure PyDate where
  year : Nat
  month : Nat
  day : Nat
deriving DecidableEq, Repr

/-- Invariants `datetime.date` guarantees (MINYEAR = 1, MAXYEAR = 9999). -/
def PyDate.valid (d : PyDate) : Prop :=
  1 ≤ d.year ∧ d.year ≤ 9999 ∧ 1 ≤ d.month ∧ d.month ≤ 12 ∧ 1 ≤ d.day ∧ d.day ≤ 31

instance (d : PyDate) : Decidable d.valid := by unfold PyDate.valid; infer_instance

/-- Python `date` comparison `a < b` (lexicographic on year, month, day). -/
def dateLt (a b : PyDate) : Prop :=
  a.year < b.year ∨
    (a.year = b.year ∧ (a.month < b.month ∨ (a.month = b.month ∧ a.day < b.day)))

instance (a b : PyDate) : Decidable (dateLt a b) := by unfold dateLt; infer_instance

/-- Decimal digit character: `digitChar n` is the character of `n % 10`. -/
def digitChar (n : Nat) : Char := Char.ofNat (48 + n % 10)

/-- The f-string `f"{y:04d}-{m:02d}"` of `month_range`, written out digit by
digit.  It agrees with Python's formatting for every `y ≤ 9999` and `m ≤ 99`,
which `datetime.date` guarantees. -/
def monthLabel (y m : Nat) : String :=
  ⟨[digitChar (y / 1000), digitChar (y / 100), digitChar (y / 10), digitChar y,
    '-', digitChar (m / 10), digitChar m]⟩

/-- The while-loop of `month_range`, with an explicit fuel bound on the number
of iterations.  Each iteration appends the label of the current (year, month)
and advances by one month exactly as the Python loop does
(`m += 1; if m > 12: m = 1; y += 1`).  Every caller supplies fuel that
provably exceeds the number of iterations (see `month_range_fuel_enough`),
so the fuel pattern never truncates the loop. -/
def monthRangeAux (ey em : Nat) : Nat → Nat → Nat → List String
  | 0, _, _ => []
  | fuel + 1, y, m =>
    if y < ey ∨ (y = ey ∧ m ≤ em) then
      monthLabel y m ::
        (if 12 < m + 1 then monthRangeAux ey em fuel (y + 1) 1
         else monthRangeAux ey em fuel y (m + 1))
    else []

/-- Fuel that always suffices for the loop from `lo` to `hi`. -/
def monthFuel (loYear hiYear : Nat) : Nat := (hiYear + 1 - loYear) * 13 + 13

/-- The measure the loop strictly decreases (used only in proofs). -/
def monthMeasure (ey y m : Nat) : Nat := (ey + 1 - y) * 13 + (13 - m)

namespace Revenue

/-- Embedding of `month_range(start, end)` (modules/revenue.py, lines 37-49):
swap the two dates when `end < start`, then walk month by month from the
first (year, month) to the last, inclusive. -/
def month_range (start finish : PyDate) : List String :=
  if dateLt finish start then
    monthRangeAux start.year start.month (monthFuel finish.year start.year)
      finish.year finish.month
  else
    monthRangeAux finish.year finish.month (monthFuel start.year finish.year)
      start.year start.month

/-- Embedding of `build_distribution_weights`'s raw weight vector `w`
(modules/revenue.py, lines 70-84), one entry per month:

* Uniform (and any unrecognised mode): all ones;
* Front-loaded: n, n-1, ..., 1;
* Back-loaded: 1, 2, ..., n;
* Custom: the supplied weight of each month (missing entries read as 0,
  negatives clamped to 0 by `max(0.0, ...)`); a falsy custom map (None or
  empty) or an all-zero clamped vector silently falls back to all ones. -/
def bdwRaw (months : List String) (mode : String)
    (custom_weights : Option (List (String × ℚ))) : List ℚ :=
  let n := months.length
  if mode = "Uniform" then List.replicate n 1
  else if mode = "Front-loaded" then (List.range n).map (fun i => ((n - i : Nat) : ℚ))
  else if mode = "Back-loaded" then (List.range n).map (fun i => ((i + 1 : Nat) : ℚ))
  else if mode = "Custom" then
    match custom_weights with
    | none => List.replicate n 1
    | some cw =>
      if cw.isEmpty then List.replicate n 1
      else
        let w := months.map (fun m => max 0 (dictGetD cw m 0))
        if w.sum = 0 then List.replicate n 1 else w
  else List.replicate n 1

/-- Embedding of `build_distribution_weights(months, mode, custom_weights)`
(modules/revenue.py, lines 61-87): empty months give an empty dict, otherwise
the dict `{months[i]: w[i] / total}` where `total = sum(w)`.  Duplicate month
labels collapse exactly as they do in the Python dict comprehension. -/
def build_distribution_weights (months : List String) (mode : String)
    (custom_weights : Option (List (String × ℚ))) : List (String × ℚ) :=
  if months.length = 0 then []
  else
    let w := bdwRaw months mode custom_weights
    let total := w.sum
    pyDict (months.zip (w.map (fun x => x / total)))

/-- Embedding of `distribute_quantity(total_qty, weights)`
(modules/revenue.py, lines 90-91): `{m: total_qty * w for m, w in weights}`. -/
def distribute_quantity (total_qty : ℚ) (weights : List (String × ℚ)) :
    List (String × ℚ) :=
  weights.map (fun p => (p.1, total_qty * p.2))

end Revenue

/- ============================================================
   Arithmetic helper lemmas for the distribution logic
   ============================================================ -/

theorem list_sum_map_div (l : List ℚ) (t : ℚ) :
    (l.map (fun x => x / t)).sum = l.sum / t := by
  induction l with
  | nil => simp
  | cons a l ih => simp [ih, add_div]

theorem list_sum_map_mul_left (l : List (String × ℚ)) (t : ℚ) :
    ((l.map (fun p => (p.1, t * p.2))).map Prod.snd).sum = t * (l.map Prod.snd).sum := by
  induction l with
  | nil => simp
  | cons a l ih =>
    simp only [List.map_cons, List.map_map, List.sum_cons] at ih ⊢
    rw [ih, mul_add]

theorem list_sum_pos : ∀ {l : List ℚ}, (∀ x ∈ l, 0 < x) → l ≠ [] → 0 < l.sum := by
  intro l
  induction l with
  | nil => intro _ h; exact absurd rfl h
  | cons a l ih =>
    intro hpos _
    rcases List.eq_nil_or_concat l with rfl | _
    · simpa using hpos a (by simp)
    · have ha : 0 < a := hpos a (by simp)
      rcases l with _ | ⟨b, l'⟩
      · simpa using ha
      · have : 0 < (b :: l').sum := ih (fun x hx => hpos x (by simp [hx])) (by simp)
        simpa using add_pos ha this

theorem list_sum_nonneg : ∀ {l : List ℚ}, (∀ x ∈ l, 0 ≤ x) → 0 ≤ l.sum := by
  intro l
  induction l with
  | nil => intro _; simp
  | cons a l ih =>
    intro h
    have := ih (fun x hx => h x (by simp [hx]))
    simpa using add_nonneg (h a (by simp)) this

namespace Revenue

theorem bdwRaw_length (months : List String) (mode : String)
    (cw : Option (List (String × ℚ))) : (bdwRaw months mode cw).length = months.length := by
  unfold bdwRaw
  split <;> try simp
  split <;> try simp
  split <;> try simp
  split
  · rcases cw with _ | c
    · simp
    · simp only []
      split
      · simp
      · split <;> simp
  · simp

theorem bdwRaw_sum_pos (months : List String) (mode : String)
    (cw : Option (List (String × ℚ))) (hne : months ≠ []) :
    0 < (bdwRaw months mode cw).sum := by
  have hn : months.length ≠ 0 := fun h => hne (List.length_eq_zero.mp h)
  have hrep : 0 < (List.replicate months.length (1 : ℚ)).sum := by
    rw [List.sum_replicate]
    simp only [nsmul_eq_mul, mul_one]
    exact_mod_cast Nat.pos_of_ne_zero hn
  unfold bdwRaw
  split
  · exact hrep
  split
  · -- Front-loaded: entries n, n-1, ..., 1 are all positive
    apply list_sum_pos
    · intro x hx
      simp only [List.mem_map, List.mem_range] at hx
      obtain ⟨i, hi, rfl⟩ := hx
      have : 0 < months.length - i := by omega
      exact_mod_cast this
    · simp [hn]
  split
  · -- Back-loaded: entries 1, 2, ..., n are all positive
    apply list_sum_pos
    · intro x hx
      simp only [List.mem_map, List.mem_range] at hx
      obtain ⟨i, hi, rfl⟩ := hx
      exact_mod_cast Nat.succ_pos i
    · simp [hn]
  split
  · rcases cw with _ | c
    · exact hrep
    · simp only []
      split
      · exact hrep
      · split
        · exact hrep
        · rename_i hsum
          have hnonneg : 0 ≤ (months.map (fun m => max 0 (dictGetD c m 0))).sum := by
            apply list_sum_nonneg
            intro x hx
            simp only [List.mem_map] at hx
            obtain ⟨m, _, rfl⟩ := hx
            exact le_max_left 0 _
          exact lt_of_le_of_ne hnonneg (Ne.symm hsum)
  · exact hrep

/-- Core normalization fact: for a non-empty list of pairwise-distinct months,
every mode and every custom map, the weight dict's values sum to exactly 1. -/
theorem bdw_valuesSum_eq_one (months : List String) (mode : String)
    (cw : Option (List (String × ℚ))) (hne : months ≠ []) (hnd : months.Nodup) :
    dictValuesSum (build_distribution_weights months mode cw) = 1 := by
  have hn : months.length ≠ 0 := fun h => hne (List.length_eq_zero.mp h)
  have hlen := bdwRaw_length months mode cw
  have hpos := bdwRaw_sum_pos months mode cw hne
  unfold build_distribution_weights
  rw [if_neg hn]
  have hlen' : (((bdwRaw months mode cw).map (fun x => x / (bdwRaw months mode cw).sum))).length
      = months.length := by simp [hlen]
  have hkeys : (months.zip ((bdwRaw months mode cw).map
      (fun x => x / (bdwRaw months mode cw).sum))).map Prod.fst = months :=
    List.map_fst_zip _ _ (le_of_eq hlen'.symm)
  rw [pyDict_eq_self (by rw [hkeys]; exact hnd)]
  unfold dictValuesSum
  rw [List.map_snd_zip _ _ (le_of_eq hlen'), list_sum_map_div, div_self (ne_of_gt hpos)]

end Revenue

/- ============================================================
   Claim C1 — build_distribution_weights normalization
   ============================================================ -/

/-- C1 (counterexample): the claim as stated quantifies over every non-empty
list of months, but for a list with a duplicated label the Python dict
comprehension `{months[i]: w[i]/total}` collapses the two bindings, and the
weights of `build_distribution_weights(["2026-01","2026-01"], "Uniform")` sum
to 1/2 — not within 1e-9 of 1. -/
theorem C1_counterexample :
    (["2026-01", "2026-01"] : List String) ≠ [] ∧
    ¬ |dictValuesSum (Revenue.build_distribution_weights
        ["2026-01", "2026-01"] "Uniform" none) - 1| ≤ 1 / 1000000000 := by
  constructor
  · simp
  · simp only [Revenue.build_distribution_weights, Revenue.bdwRaw, pyDict, dictInsert,
      dictValuesSum, List.foldl, List.zip, List.zipWith, List.map_cons, List.map_nil,
      List.sum_cons, List.sum_nil, List.length_cons, List.length_nil, List.replicate]
    norm_num
    rw [abs_of_nonneg (by norm_num)]
    norm_num

/-- C1 (amended): for every non-empty list of pairwise-distinct months, every
mode string and every (well- or ill-formed) custom-weights map, the weights
returned by `build_distribution_weights` sum to exactly 1; for an empty months
list it returns the empty map. -/
theorem C1_weights_sum_amended (months : List String) (mode : String)
    (cw : Option (List (String × ℚ))) (hne : months ≠ []) (hnd : months.Nodup) :
    dictValuesSum (Revenue.build_distribution_weights months mode cw) = 1 ∧
    Revenue.build_distribution_weights [] mode cw = [] :=
  ⟨Revenue.bdw_valuesSum_eq_one months mode cw hne hnd, rfl⟩

/-- C1 (witness): the amended claim instantiated at a concrete three-month
front-loaded call (and an ill-formed custom map that is simply ignored). -/
theorem C1_weights_sum_witness :
    dictValuesSum (Revenue.build_distribution_weights
      ["2026-01", "2026-02", "2026-03"] "Front-loaded" (some [("2026-01", -5)])) = 1 ∧
    Revenue.build_distribution_weights [] "Front-loaded" (some [("2026-01", -5)]) = [] :=
  C1_weights_sum_amended _ _ _ (by decide) (by decide)

/- ============================================================
   Claim C2 — distribute_quantity preserves the total
   ============================================================ -/

/-- C2 (counterexample): for the weight map produced from a non-empty month
list with a duplicated label, `distribute_quantity` does not sum back to the
total: with total 10 the per-month quantities sum to 5, which is not within
1e-6 of 10. -/
theorem C2_counterexample :
    (["2026-01", "2026-01"] : List String) ≠ [] ∧
    ¬ |dictValuesSum (Revenue.distribute_quantity 10
        (Revenue.build_distribution_weights ["2026-01", "2026-01"] "Uniform" none)) - 10|
      ≤ 1 / 1000000 := by
  constructor
  · simp
  · simp only [Revenue.build_distribution_weights, Revenue.bdwRaw, Revenue.distribute_quantity,
      pyDict, dictInsert, dictValuesSum, List.foldl, List.zip, List.zipWith, List.map_cons,
      List.map_nil, List.sum_cons, List.sum_nil, List.length_cons, List.length_nil,
      List.replicate]
    norm_num

/-- C2 (amended): for every total quantity and every weight map produced by
`build_distribution_weights` from a non-empty list of pairwise-distinct
months, the per-month quantities `total × weight` of `distribute_quantity`
sum to exactly the total. -/
theorem C2_distribute_sums_amended (total : ℚ) (months : List String) (mode : String)
    (cw : Option (List (String × ℚ))) (hne : months ≠ []) (hnd : months.Nodup) :
    dictValuesSum (Revenue.distribute_quantity total
      (Revenue.build_distribution_weights months mode cw)) = total := by
  have h1 := Revenue.bdw_valuesSum_eq_one months mode cw hne hnd
  unfold Revenue.distribute_quantity
  unfold dictValuesSum at h1 ⊢
  rw [list_sum_map_mul_left, h1, mul_one]

/-- C2 (witness): the amended claim instantiated at total 7 over two
back-loaded months. -/
theorem C2_distribute_sums_witness :
    dictValuesSum (Revenue.distribute_quantity 7
      (Revenue.build_distribution_weights ["2026-01", "2026-02"] "Back-loaded" none)) = 7 :=
  C2_distribute_sums_amended 7 _ _ _ (by decide) (by decide)

/- ============================================================
   Ordering facts about month labels
   ============================================================ -/

theorem digitChar_lt_aux : ∀ {x y : Nat}, x < 10 → y < 10 → x < y →
    Char.ofNat (48 + x) < Char.ofNat (48 + y) := by
  intro x y hx hy h
  interval_cases x <;> interval_cases y <;> first | omega | decide

theorem digitChar_lt {a b : Nat} (h : a % 10 < b % 10) : digitChar a < digitChar b :=
  digitChar_lt_aux (Nat.mod_lt _ (by norm_num)) (Nat.mod_lt _ (by norm_num)) h

/-- Within one year, the label of a month is lexicographically below the label
of the next month. -/
theorem monthLabel_lt_next_month (y m : Nat) (h1 : 1 ≤ m) (h2 : m ≤ 11) :
    monthLabel y m < monthLabel y (m + 1) := by
  rw [String.lt_iff_toList_lt]
  show List.Lex (· < ·)
    [digitChar (y / 1000), digitChar (y / 100), digitChar (y / 10), digitChar y,
     '-', digitChar (m / 10), digitChar m]
    [digitChar (y / 1000), digitChar (y / 100), digitChar (y / 10), digitChar y,
     '-', digitChar ((m + 1) / 10), digitChar (m + 1)]
  apply List.Lex.cons
  apply List.Lex.cons
  apply List.Lex.cons
  apply List.Lex.cons
  apply List.Lex.cons
  interval_cases m <;> decide

set_option maxHeartbeats 1000000 in
/-- December's label is lexicographically below January's label of the next
year, for every year below the Python date ceiling. -/
theorem monthLabel_lt_next_year (y : Nat) (hy : y ≤ 9998) :
    monthLabel y 12 < monthLabel (y + 1) 1 := by
  rw [String.lt_iff_toList_lt]
  show List.Lex (· < ·)
    [digitChar (y / 1000), digitChar (y / 100), digitChar (y / 10), digitChar y,
     '-', digitChar (12 / 10), digitChar 12]
    [digitChar ((y + 1) / 1000), digitChar ((y + 1) / 100), digitChar ((y + 1) / 10),
     digitChar (y + 1), '-', digitChar (1 / 10), digitChar 1]
  by_cases c1 : y % 10 ≤ 8
  · have h1000 : (y + 1) / 1000 = y / 1000 := by omega
    have h100 : (y + 1) / 100 = y / 100 := by omega
    have h10 : (y + 1) / 10 = y / 10 := by omega
    rw [h1000, h100, h10]
    apply List.Lex.cons
    apply List.Lex.cons
    apply List.Lex.cons
    exact List.Lex.rel (digitChar_lt (by omega))
  · have c1' : y % 10 = 9 := by omega
    by_cases c2 : y % 100 ≤ 89
    · have h1000 : (y + 1) / 1000 = y / 1000 := by omega
      have h100 : (y + 1) / 100 = y / 100 := by omega
      rw [h1000, h100]
      apply List.Lex.cons
      apply List.Lex.cons
      exact List.Lex.rel (digitChar_lt (by omega))
    · have c2' : y % 100 = 99 := by omega
      by_cases c3 : y % 1000 ≤ 899
      · have h1000 : (y + 1) / 1000 = y / 1000 := by omega
        rw [h1000]
        apply List.Lex.cons
        exact List.Lex.rel (digitChar_lt (by omega))
      · have c3' : y % 1000 = 999 := by omega
        exact List.Lex.rel (digitChar_lt (by omega))

/- ============================================================
   Properties of the month_range loop
   ============================================================ -/

theorem monthRangeAux_nil (ey em y m : Nat) : monthRangeAux ey em 0 y m = [] := rfl

theorem monthRangeAux_succ (ey em fuel y m : Nat) :
    monthRangeAux ey em (fuel + 1) y m =
      if y < ey ∨ (y = ey ∧ m ≤ em) then
        monthLabel y m ::
          (if 12 < m + 1 then monthRangeAux ey em fuel (y + 1) 1
           else monthRangeAux ey em fuel y (m + 1))
      else [] := rfl

/-- A non-trivial run of the loop starts with the label of the current month,
and only runs at all when the loop guard holds. -/
theorem monthRangeAux_head (ey em fuel y m : Nat) :
    monthRangeAux ey em fuel y m = [] ∨
    (∃ t, monthRangeAux ey em fuel y m = monthLabel y m :: t) ∧
      (y < ey ∨ (y = ey ∧ m ≤ em)) := by
  cases fuel with
  | zero => left; rfl
  | succ f =>
    by_cases hg : y < ey ∨ (y = ey ∧ m ≤ em)
    · right
      exact ⟨⟨_, by rw [monthRangeAux_succ, if_pos hg]⟩, hg⟩
    · left
      rw [monthRangeAux_succ, if_neg hg]

theorem monthRangeAux_cons_of_guard (ey em fuel y m : Nat)
    (hg : y < ey ∨ (y = ey ∧ m ≤ em)) (hf : 1 ≤ fuel) :
    ∃ t, monthRangeAux ey em fuel y m = monthLabel y m :: t := by
  rcases monthRangeAux_head ey em fuel y m with hnil | ⟨ht, _⟩
  · exfalso
    cases fuel with
    | zero => omega
    | succ f => rw [monthRangeAux_succ, if_pos hg] at hnil; simp at hnil
  · exact ht

/-- The labels a run of the loop produces are strictly increasing strings,
provided the inputs are in the ranges `datetime.date` guarantees. -/
theorem monthRangeAux_chain (ey em : Nat) (hem1 : 1 ≤ em) (hem : em ≤ 12)
    (hey : ey ≤ 9999) :
    ∀ fuel y m, 1 ≤ m → m ≤ 12 →
      List.Chain' (· < ·) (monthRangeAux ey em fuel y m) := by
  intro fuel
  induction fuel with
  | zero => intro y m _ _; rw [monthRangeAux_nil]; exact List.chain'_nil
  | succ f ih =>
    intro y m h1 h2
    rw [monthRangeAux_succ]
    split
    · rename_i hg
      rw [List.chain'_cons']
      constructor
      · intro b hb
        split at hb
        · rename_i hm
          rcases monthRangeAux_head ey em f (y + 1) 1 with hnil | ⟨⟨t, heq⟩, hgnext⟩
          · rw [hnil] at hb; simp at hb
          · rw [heq] at hb
            simp only [List.head?_cons, Option.mem_def, Option.some.injEq] at hb
            subst hb
            have hm12 : m = 12 := by omega
            subst hm12
            exact monthLabel_lt_next_year y (by omega)
        · rename_i hm
          rcases monthRangeAux_head ey em f y (m + 1) with hnil | ⟨⟨t, heq⟩, hgnext⟩
          · rw [hnil] at hb; simp at hb
          · rw [heq] at hb
            simp only [List.head?_cons, Option.mem_def, Option.some.injEq] at hb
            subst hb
            exact monthLabel_lt_next_month y m h1 (by omega)
      · split
        · exact ih (y + 1) 1 (by omega) (by omega)
        · exact ih y (m + 1) (by omega) (by omega)
    · exact List.chain'_nil

/-- A run of the loop whose fuel covers the remaining distance reaches the end
(year, month) and emits its label. -/
theorem monthRangeAux_mem_end (ey em : Nat) (hem1 : 1 ≤ em) (hem : em ≤ 12) :
    ∀ fuel y m, monthMeasure ey y m ≤ fuel → (y < ey ∨ (y = ey ∧ m ≤ em)) →
      1 ≤ m → m ≤ 12 → monthLabel ey em ∈ monthRangeAux ey em fuel y m := by
  intro fuel
  induction fuel with
  | zero =>
    intro y m hmu hg _ _
    exfalso
    unfold monthMeasure at hmu
    omega
  | succ f ih =>
    intro y m hmu hg h1 h2
    rw [monthRangeAux_succ, if_pos hg]
    by_cases hend : y = ey ∧ m = em
    · rw [hend.1, hend.2]
      exact List.mem_cons_self _ _
    · apply List.mem_cons_of_mem
      unfold monthMeasure at hmu
      split
      · exact ih (y + 1) 1 (by unfold monthMeasure; omega) (by omega) (by omega) (by omega)
      · rename_i hm
        exact ih y (m + 1) (by unfold monthMeasure; omega) (by omega) (by omega) (by omega)

theorem dateLt_asymm {a b : PyDate} (h : dateLt a b) : ¬ dateLt b a := by
  unfold dateLt at *
  omega

theorem guard_of_dateLt {a b : PyDate} (h : dateLt a b) :
    a.year < b.year ∨ (a.year = b.year ∧ a.month ≤ b.month) := by
  unfold dateLt at h
  omega

theorem guard_of_not_dateLt {a b : PyDate} (h : ¬ dateLt b a) :
    a.year < b.year ∨ (a.year = b.year ∧ a.month ≤ b.month) := by
  unfold dateLt at h
  omega

/-- month_range is never empty, for any pair of dates. -/
theorem month_range_ne_nil (s e : PyDate) : Revenue.month_range s e ≠ [] := by
  unfold Revenue.month_range
  by_cases hlt : dateLt e s
  · rw [if_pos hlt]
    obtain ⟨t, ht⟩ := monthRangeAux_cons_of_guard s.year s.month
      (monthFuel e.year s.year) e.year e.month
      (guard_of_dateLt hlt) (by unfold monthFuel; omega)
    rw [ht]
    simp
  · rw [if_neg hlt]
    obtain ⟨t, ht⟩ := monthRangeAux_cons_of_guard e.year e.month
      (monthFuel s.year e.year) s.year s.month
      (guard_of_not_dateLt hlt) (by unfold monthFuel; omega)
    rw [ht]
    simp

/-- month_range is strictly increasing in the string order for valid dates. -/
theorem month_range_chain (s e : PyDate) (hs : s.valid) (he : e.valid) :
    List.Chain' (· < ·) (Revenue.month_range s e) := by
  obtain ⟨hs1, hs2, hs3, hs4, _, _⟩ := hs
  obtain ⟨he1, he2, he3, he4, _, _⟩ := he
  unfold Revenue.month_range
  by_cases hlt : dateLt e s
  · rw [if_pos hlt]
    exact monthRangeAux_chain s.year s.month hs3 hs4 hs2 _ e.year e.month he3 he4
  · rw [if_neg hlt]
    exact monthRangeAux_chain e.year e.month he3 he4 he2 _ s.year s.month hs3 hs4

/-- month_range contains the start month's label and the end month's label. -/
theorem month_range_mem_labels (s e : PyDate) (hs : s.valid) (he : e.valid) :
    monthLabel s.year s.month ∈ Revenue.month_range s e ∧
    monthLabel e.year e.month ∈ Revenue.month_range s e := by
  obtain ⟨hs1, hs2, hs3, hs4, _, _⟩ := hs
  obtain ⟨he1, he2, he3, he4, _, _⟩ := he
  unfold Revenue.month_range
  by_cases hlt : dateLt e s
  · rw [if_pos hlt]
    have hg := guard_of_dateLt hlt
    constructor
    · exact monthRangeAux_mem_end s.year s.month hs3 hs4 _ e.year e.month
        (by unfold monthMeasure monthFuel; omega) hg he3 he4
    · obtain ⟨t, ht⟩ := monthRangeAux_cons_of_guard s.year s.month
        (monthFuel e.year s.year) e.year e.month hg
        (by unfold monthFuel; omega)
      rw [ht]
      exact List.mem_cons_self _ _
  · rw [if_neg hlt]
    have hg := guard_of_not_dateLt hlt
    constructor
    · obtain ⟨t, ht⟩ := monthRangeAux_cons_of_guard e.year e.month
        (monthFuel s.year e.year) s.year s.month hg
        (by unfold monthFuel; omega)
      rw [ht]
      exact List.mem_cons_self _ _
    · exact monthRangeAux_mem_end e.year e.month he3 he4 _ s.year s.month
        (by unfold monthMeasure monthFuel; omega) hg hs3 hs4

/-- Swapping the argument dates does not change month_range. -/
theorem month_range_symm (s e : PyDate) : Revenue.month_range s e = Revenue.month_range e s := by
  unfold Revenue.month_range
  by_cases hlt : dateLt e s
  · rw [if_pos hlt, if_neg (dateLt_asymm hlt)]
  · rw [if_neg hlt]
    by_cases hlt' : dateLt s e
    · rw [if_pos hlt']
    · rw [if_neg hlt']
      have hy : s.year = e.year := by unfold dateLt at hlt hlt'; omega
      have hm : s.month = e.month := by unfold dateLt at hlt hlt'; omega
      rw [hy, hm]

/-- month_range has no duplicate labels for valid dates. -/
theorem month_range_nodup (s e : PyDate) (hs : s.valid) (he : e.valid) :
    (Revenue.month_range s e).Nodup :=
  (List.chain'_iff_pairwise.mp (month_range_chain s e hs he)).nodup

/- ============================================================
   Claim C9 — month_range
   ============================================================ -/

/-- C9: for every pair of valid dates, `month_range` returns an ordered
(strictly increasing in the lexicographic string order), non-empty sequence of
"YYYY-MM" labels that includes both the start month's label and the end
month's label; when the end date precedes the start date the two are swapped
first, so the result is insensitive to the argument order and is never
empty (a single month at minimum). -/
theorem C9_month_range_ordered_inclusive (s e : PyDate) (hs : s.valid) (he : e.valid) :
    Revenue.month_range s e ≠ [] ∧
    List.Chain' (· < ·) (Revenue.month_range s e) ∧
    monthLabel s.year s.month ∈ Revenue.month_range s e ∧
    monthLabel e.year e.month ∈ Revenue.month_range s e ∧
    Revenue.month_range s e = Revenue.month_range e s :=
  ⟨month_range_ne_nil s e, month_range_chain s e hs he,
    (month_range_mem_labels s e hs he).1, (month_range_mem_labels s e hs he).2,
    month_range_symm s e⟩

/-- C9 (witness): the claim instantiated with a reversed pair of concrete
dates (the end date precedes the start date, so the swap is exercised). -/
theorem C9_month_range_witness :
    Revenue.month_range ⟨2026, 2, 5⟩ ⟨2025, 11, 20⟩ ≠ [] ∧
    List.Chain' (· < ·) (Revenue.month_range ⟨2026, 2, 5⟩ ⟨2025, 11, 20⟩) ∧
    monthLabel 2026 2 ∈ Revenue.month_range ⟨2026, 2, 5⟩ ⟨2025, 11, 20⟩ ∧
    monthLabel 2025 11 ∈ Revenue.month_range ⟨2026, 2, 5⟩ ⟨2025, 11, 20⟩ ∧
    Revenue.month_range ⟨2026, 2, 5⟩ ⟨2025, 11, 20⟩ =
      Revenue.month_range ⟨2025, 11, 20⟩ ⟨2026, 2, 5⟩ :=
  C9_month_range_ordered_inclusive ⟨2026, 2, 5⟩ ⟨2025, 11, 20⟩ (by decide) (by decide)

/- ============================================================
   OPEX expansion (modules/opex.py)
   ============================================================ -/

namespace Opex

/-- Dataclass `OpexItem` (modules/opex.py, lines 15-24). -/
structure OpexItem where
  id : String
  name : String
  category : String
  cost_bdt : ℚ
  start_month : String
  end_month : Option String
  is_one_time : Bool
  notes : String := ""
deriving DecidableEq, Repr

/-- One row of the expanded OPEX table (the display-only `month_nice` column
is omitted). -/
structure OpexRow where
  month : String
  opex_id : String
  name : String
  category : String
  cost_bdt : ℚ
  is_one_time : Bool
  notes : String
deriving DecidableEq, Repr

/-- The loop body of `expand_opex_for_campaign` for one item and one campaign
month (modules/opex.py, lines 70-88): skip the month when it is outside the
item's `[start_month, end_month or "9999-12"]` window, skip it when the item
is one-time and the month is not the item's own start month, and otherwise
emit a row. -/
def opexRowForMonth (item : OpexItem) (m : String) : Option OpexRow :=
  if item.start_month ≤ m ∧ m ≤ item.end_month.getD "9999-12" then
    if item.is_one_time ∧ m ≠ item.start_month then none
    else some ⟨m, item.id, item.name, item.category, item.cost_bdt, item.is_one_time, item.notes⟩
  else none

/-- Embedding of `expand_opex_for_campaign(campaign_start, campaign_end,
opex_items)` (modules/opex.py, lines 51-96): the rows contributed by each item
over the campaign's month range, items in order, months in order within an
item.  The trailing `astype(float)` on a non-empty frame does not change the
(already numeric) cost column. -/
def expand_opex_for_campaign (campaign_start campaign_end : PyDate)
    (opex_items : List OpexItem) : List OpexRow :=
  let camp_months := Revenue.month_range campaign_start campaign_end
  if camp_months.isEmpty then []
  else opex_items.flatMap (fun item => camp_months.filterMap (opexRowForMonth item))

end Opex

/- ============================================================
   Every campaign month label is at most the "9999-12" sentinel
   ============================================================ -/

theorem monthLabel_le_sentinel (y m : Nat) (hy : y ≤ 9999) (h1 : 1 ≤ m) (h2 : m ≤ 12) :
    monthLabel y m ≤ "9999-12" := by
  by_cases hy9 : y = 9999
  · subst hy9
    rw [String.le_iff_toList_le]
    interval_cases m <;> decide
  · apply le_of_lt
    rw [String.lt_iff_toList_lt]
    show List.Lex (· < ·)
      [digitChar (y / 1000), digitChar (y / 100), digitChar (y / 10), digitChar y,
       '-', digitChar (m / 10), digitChar m]
      ['9', '9', '9', '9', '-', '1', '2']
    have hnine : ∀ a : Nat, a % 10 < 9 → digitChar a < '9' := by
      intro a ha
      exact digitChar_lt (a := a) (b := 9) (by omega)
    by_cases c1 : y / 1000 % 10 < 9
    · exact List.Lex.rel (hnine _ c1)
    · have e1 : digitChar (y / 1000) = '9' := by
        unfold digitChar
        rw [show y / 1000 % 10 = 9 from by omega]
      rw [e1]
      apply List.Lex.cons
      by_cases c2 : y / 100 % 10 < 9
      · exact List.Lex.rel (hnine _ c2)
      · have e2 : digitChar (y / 100) = '9' := by
          unfold digitChar
          rw [show y / 100 % 10 = 9 from by omega]
        rw [e2]
        apply List.Lex.cons
        by_cases c3 : y / 10 % 10 < 9
        · exact List.Lex.rel (hnine _ c3)
        · have e3 : digitChar (y / 10) = '9' := by
            unfold digitChar
            rw [show y / 10 % 10 = 9 from by omega]
          rw [e3]
          apply List.Lex.cons
          exact List.Lex.rel (hnine _ (by omega))

/-- Every element the loop emits is a month label within date bounds. -/
theorem monthRangeAux_mem_shape (ey em : Nat) (hey : ey ≤ 9999) :
    ∀ fuel y m, 1 ≤ m → m ≤ 12 →
      ∀ x ∈ monthRangeAux ey em fuel y m,
        ∃ y' m', x = monthLabel y' m' ∧ y' ≤ 9999 ∧ 1 ≤ m' ∧ m' ≤ 12 := by
  intro fuel
  induction fuel with
  | zero => intro y m _ _ x hx; rw [monthRangeAux_nil] at hx; simp at hx
  | succ f ih =>
    intro y m h1 h2 x hx
    rw [monthRangeAux_succ] at hx
    split at hx
    · rename_i hg
      rcases List.mem_cons.mp hx with rfl | htail
      · exact ⟨y, m, rfl, by omega, h1, h2⟩
      · split at htail
        · exact ih (y + 1) 1 (by omega) (by omega) x htail
        · exact ih y (m + 1) (by omega) (by omega) x htail
    · simp at hx

/-- Every label of month_range is at most the "9999-12" window sentinel. -/
theorem month_range_le_sentinel (s e : PyDate) (hs : s.valid) (he : e.valid) :
    ∀ x ∈ Revenue.month_range s e, x ≤ "9999-12" := by
  obtain ⟨hs1, hs2, hs3, hs4, _, _⟩ := hs
  obtain ⟨he1, he2, he3, he4, _, _⟩ := he
  intro x hx
  unfold Revenue.month_range at hx
  split at hx
  · obtain ⟨y', m', rfl, hb1, hb2, hb3⟩ :=
      monthRangeAux_mem_shape s.year s.month hs2 _ e.year e.month he3 he4 x hx
    exact monthLabel_le_sentinel y' m' hb1 hb2 hb3
  · obtain ⟨y', m', rfl, hb1, hb2, hb3⟩ :=
      monthRangeAux_mem_shape e.year e.month he2 _ s.year s.month hs3 hs4 x hx
    exact monthLabel_le_sentinel y' m' hb1 hb2 hb3

/- ============================================================
   Claim C3 — expand_opex_for_campaign emission rule
   ============================================================ -/

theorem filterMap_eq_map_of_forall {α β : Type} (f : α → Option β) (g : α → β) :
    ∀ l : List α, (∀ a ∈ l, f a = some (g a)) → l.filterMap f = l.map g := by
  intro l
  induction l with
  | nil => intro _; rfl
  | cons a t ih =>
    intro h
    rw [List.filterMap_cons, h a (by simp), List.map_cons,
      ih (fun x hx => h x (by simp [hx]))]

theorem filterMap_singleton_support {α β : Type} [DecidableEq α] (f : α → Option β) (a₀ : α)
    (hf : ∀ a, (f a).isSome → a = a₀) :
    ∀ l : List α, (l.filterMap f).length ≤ l.count a₀ := by
  intro l
  induction l with
  | nil => simp
  | cons a t ih =>
    rw [List.filterMap_cons]
    cases hfa : f a with
    | none =>
      refine le_trans ih ?_
      rw [List.count_cons]
      split <;> omega
    | some b =>
      have ha : a = a₀ := hf a (by rw [hfa]; rfl)
      subst ha
      rw [List.length_cons, List.count_cons_self]
      exact Nat.succ_le_succ ih

namespace Opex

theorem opexRowForMonth_eq_some {item : OpexItem} {m : String} {r : OpexRow}
    (h : opexRowForMonth item m = some r) :
    item.start_month ≤ m ∧ m ≤ item.end_month.getD "9999-12" ∧
      (item.is_one_time = true → m = item.start_month) ∧
      r = ⟨m, item.id, item.name, item.category, item.cost_bdt,
        item.is_one_time, item.notes⟩ := by
  unfold opexRowForMonth at h
  split at h
  · rename_i hw
    split at h
    · cases h
    · rename_i ho
      refine ⟨hw.1, hw.2, ?_, (Option.some.inj h).symm⟩
      intro hot
      by_contra hne
      exact ho ⟨hot, hne⟩
  · cases h

theorem opexRowForMonth_eq_some_of (item : OpexItem) (m : String)
    (hw1 : item.start_month ≤ m) (hw2 : m ≤ item.end_month.getD "9999-12")
    (ho : item.is_one_time = true → m = item.start_month) :
    opexRowForMonth item m =
      some ⟨m, item.id, item.name, item.category, item.cost_bdt,
        item.is_one_time, item.notes⟩ := by
  unfold opexRowForMonth
  rw [if_pos ⟨hw1, hw2⟩, if_neg (fun hc => hc.2 (ho hc.1))]

/-- expand_opex_for_campaign on a single item is the filterMap of its loop
body over the campaign months (the months are never empty). -/
theorem expand_opex_single (s e : PyDate) (item : OpexItem) :
    expand_opex_for_campaign s e [item] =
      (Revenue.month_range s e).filterMap (opexRowForMonth item) := by
  unfold expand_opex_for_campaign
  rw [if_neg (by simpa using month_range_ne_nil s e)]
  simp

end Opex

/-- C3: for every opex item and every month m in the campaign's month range, a
row for (item, m) is emitted iff `item.start_month ≤ m ≤ (item.end_month or
"9999-12")`, except that a one-time item only ever gets a row at its own
start month; consequently a one-time item yields at most one row even over a
multi-month overlap, while an open-ended (no end month) recurring item that
starts at or before every campaign month yields exactly one row per campaign
month, each carrying the item's cost.  Date validity is what `datetime.date`
guarantees. -/
theorem C3_opex_emission (s e : PyDate) (item : Opex.OpexItem)
    (hs : s.valid) (he : e.valid) :
    (∀ m ∈ Revenue.month_range s e,
      ((∃ r ∈ Opex.expand_opex_for_campaign s e [item], r.month = m) ↔
        (item.start_month ≤ m ∧ m ≤ item.end_month.getD "9999-12" ∧
          (item.is_one_time = true → m = item.start_month)))) ∧
    (item.is_one_time = true →
      (Opex.expand_opex_for_campaign s e [item]).length ≤ 1) ∧
    (item.is_one_time = false → item.end_month = none →
      (∀ m ∈ Revenue.month_range s e, item.start_month ≤ m) →
      (Opex.expand_opex_for_campaign s e [item]).map Opex.OpexRow.month
          = Revenue.month_range s e ∧
      ∀ r ∈ Opex.expand_opex_for_campaign s e [item], r.cost_bdt = item.cost_bdt) := by
  rw [Opex.expand_opex_single s e item]
  refine ⟨?_, ?_, ?_⟩
  · intro m hm
    constructor
    · rintro ⟨r, hr, hrm⟩
      obtain ⟨m', hm', hf⟩ := List.mem_filterMap.mp hr
      obtain ⟨h1, h2, h3, hr_eq⟩ := Opex.opexRowForMonth_eq_some hf
      have hmm : m' = m := by
        rw [hr_eq] at hrm
        simpa using hrm
      subst hmm
      exact ⟨h1, h2, h3⟩
    · rintro ⟨h1, h2, h3⟩
      exact ⟨_, List.mem_filterMap.mpr
        ⟨m, hm, Opex.opexRowForMonth_eq_some_of item m h1 h2 h3⟩, rfl⟩
  · intro hot
    have hsupp : ∀ a, (Opex.opexRowForMonth item a).isSome → a = item.start_month := by
      intro a ha
      cases hfa : Opex.opexRowForMonth item a with
      | none => rw [hfa] at ha; cases ha
      | some r =>
        obtain ⟨_, _, h3, _⟩ := Opex.opexRowForMonth_eq_some hfa
        exact h3 hot
    exact le_trans (filterMap_singleton_support _ _ hsupp _)
      (List.nodup_iff_count_le_one.mp (month_range_nodup s e hs he) _)
  · intro hfalse hnone hstart
    have hall : ∀ m ∈ Revenue.month_range s e,
        Opex.opexRowForMonth item m = some ⟨m, item.id, item.name, item.category,
          item.cost_bdt, item.is_one_time, item.notes⟩ := by
      intro m hm
      refine Opex.opexRowForMonth_eq_some_of item m (hstart m hm) ?_ ?_
      · rw [hnone]
        exact month_range_le_sentinel s e hs he m hm
      · intro h
        rw [h] at hfalse
        cases hfalse
    constructor
    · rw [filterMap_eq_map_of_forall _ _ _ hall, List.map_map]
      exact List.map_id _
    · intro r hr
      rw [filterMap_eq_map_of_forall _ _ _ hall] at hr
      obtain ⟨m, hm, rfl⟩ := List.mem_map.mp hr
      rfl

/-- C3 (witness): a one-time item with start month "2026-02" over campaign
2026-02 .. 2026-04 gets a row at "2026-02" and at most one row overall. -/
theorem C3_opex_emission_witness :
    (∃ r ∈ Opex.expand_opex_for_campaign ⟨2026, 2, 1⟩ ⟨2026, 4, 30⟩
      [⟨"op1", "Photoshoot", "Marketing", 50000, "2026-02", none, true, ""⟩],
      r.month = "2026-02") ∧
    (Opex.expand_opex_for_campaign ⟨2026, 2, 1⟩ ⟨2026, 4, 30⟩
      [⟨"op1", "Photoshoot", "Marketing", 50000, "2026-02", none, true, ""⟩]).length ≤ 1 := by
  have h := C3_opex_emission ⟨2026, 2, 1⟩ ⟨2026, 4, 30⟩
    ⟨"op1", "Photoshoot", "Marketing", 50000, "2026-02", none, true, ""⟩
    (by decide) (by decide)
  have hmem : "2026-02" ∈ Revenue.month_range ⟨2026, 2, 1⟩ ⟨2026, 4, 30⟩ :=
    (month_range_mem_labels ⟨2026, 2, 1⟩ ⟨2026, 4, 30⟩ (by decide) (by decide)).1
  have hle1 : ("2026-02" : String) ≤ "2026-02" := le_refl _
  have hle2 : ("2026-02" : String) ≤ "9999-12" := by
    rw [String.le_iff_toList_le]
    decide
  exact ⟨(h.1 "2026-02" hmem).mpr ⟨hle1, hle2, fun _ => rfl⟩, h.2.1 rfl⟩

/- ============================================================
   Product model and unit economics (modules/products.py)
   ============================================================ -/

namespace Products

/-- Dataclass `Product` (modules/products.py, lines 20-40); the created/updated
timestamp strings play no role in any computation and are omitted. -/
structure Product where
  id : String
  product_code : Option String
  name : String
  category : String
  price_bdt : ℚ
  manufacturing_cost_bdt : ℚ
  packaging_cost_bdt : ℚ
  shipping_cost_bdt : ℚ
  marketing_cost_bdt : ℚ
  return_rate : ℚ
  discount_rate : ℚ
  vat_included : Bool := true
  notes : String := ""
  is_active : Bool := true
deriving DecidableEq, Repr

/-- effective_price (modules/products.py, lines 130-133). -/
def effective_price (p : Product) : ℚ :=
  p.price_bdt * (1 - p.discount_rate) * (1 - p.return_rate)

/-- total_unit_cost (modules/products.py, lines 136-142). -/
def total_unit_cost (p : Product) : ℚ :=
  p.manufacturing_cost_bdt + p.packaging_cost_bdt + p.shipping_cost_bdt +
    p.marketing_cost_bdt

/-- unit_gross_profit (modules/products.py, lines 145-146). -/
def unit_gross_profit (p : Product) : ℚ := p.price_bdt - p.manufacturing_cost_bdt

/-- unit_net_profit (modules/products.py, lines 149-150). -/
def unit_net_profit (p : Product) : ℚ := effective_price p - total_unit_cost p

/-- gross_margin_pct (modules/products.py, lines 153-155): a falsy (zero)
price is replaced by 1 as the denominator. -/
def gross_margin_pct (p : Product) : ℚ :=
  unit_gross_profit p / (if p.price_bdt = 0 then 1 else p.price_bdt)

/-- net_margin_pct (modules/products.py, lines 158-160). -/
def net_margin_pct (p : Product) : ℚ :=
  unit_net_profit p / (if effective_price p = 0 then 1 else effective_price p)

end Products

/- ============================================================
   Campaign forecast builder (modules/revenue.py)
   ============================================================ -/

/-- Python truthiness-and-membership test `d and key in d` for an optional
dict parameter. -/
def optDictTruthyContains {α : Type} (d : Option (List (String × α))) (k : String) : Bool :=
  match d with
  | none => false
  | some l => !l.isEmpty && (dictGet l k).isSome

namespace Revenue

/-- revenue_for_product_month (modules/revenue.py, lines 97-112). -/
structure Econ where
  gross_revenue : ℚ
  effective_revenue : ℚ
  total_unit_cost : ℚ
  net_profit : ℚ
deriving DecidableEq, Repr

def revenue_for_product_month (p : Products.Product) (qty : ℚ) : Econ :=
  ⟨p.price_bdt * qty, Products.effective_price p * qty,
    Products.total_unit_cost p * qty, Products.unit_net_profit p * qty⟩

/-- One row of the monthly forecast table.  The display-only `month_nice`
column is omitted and the backward-compatibility duplicate `price` column
always equals `price_bdt`, so a single field stands for both. -/
structure MonthlyRow where
  month : String
  product_id : String
  product_name : String
  category : String
  qty : ℚ
  price_bdt : ℚ
  effective_price : ℚ
  gross_revenue : ℚ
  effective_revenue : ℚ
  total_cost : ℚ
  net_profit : ℚ
deriving DecidableEq, Repr

structure SizeRow where
  product_id : String
  product_name : String
  size : String
  qty : ℚ
  gross_revenue : ℚ
  effective_revenue : ℚ
  total_cost : ℚ
  net_profit : ℚ
deriving DecidableEq, Repr

structure SummaryRow where
  product_id : String
  product_name : String
  category : String
  campaign_qty : ℚ
  gross_revenue : ℚ
  effective_revenue : ℚ
  total_cost : ℚ
  net_profit : ℚ
  gross_margin_pct : ℚ
  net_margin_pct : ℚ
deriving DecidableEq, Repr

/-- Keys in first-occurrence order.  Pandas `groupby` emits its groups sorted
by key instead; the order of the summary rows is the only difference, and no
claim concerns it. -/
def groupKeys {β : Type} [DecidableEq β] (keys : List β) : List β :=
  keys.foldl (fun acc k => if k ∈ acc then acc else acc ++ [k]) []

def monthlyKey (r : MonthlyRow) : String × String × String :=
  (r.product_id, r.product_name, r.category)

/-- The `groupby(product).agg(sum)` product summary with its zero-guarded
margin columns (modules/revenue.py, lines 204-225): `.replace(0, 1)` swaps a
zero denominator for 1 before dividing. -/
def product_summary (rows : List MonthlyRow) : List SummaryRow :=
  (groupKeys (rows.map monthlyKey)).map (fun k =>
    let grp := rows.filter (fun r => monthlyKey r = k)
    let gq := (grp.map MonthlyRow.qty).sum
    let gr := (grp.map MonthlyRow.gross_revenue).sum
    let er := (grp.map MonthlyRow.effective_revenue).sum
    let tc := (grp.map MonthlyRow.total_cost).sum
    let np := (grp.map MonthlyRow.net_profit).sum
    ⟨k.1, k.2.1, k.2.2, gq, gr, er, tc, np,
      (gr - tc) / (if gr = 0 then 1 else gr) * 100,
      np / (if er = 0 then 1 else er) * 100⟩)

/-- Embedding of build_campaign_forecast (modules/revenue.py, lines 115-228).
Returns (monthly rows, product summary, size rows); an empty monthly table
yields an empty summary, exactly as the `monthly_df.empty` branch does. -/
def build_campaign_forecast
    (products : List Products.Product)
    (quantities : List (String × ℚ))
    (start_date end_date : PyDate)
    (distribution_mode : String)
    (custom_month_weights : Option (List (String × ℚ)))
    (per_product_month_weights : Option (List (String × List (String × ℚ))))
    (size_breakdown : Option (List (String × List (String × ℚ)))) :
    List MonthlyRow × List SummaryRow × List SizeRow :=
  let months := month_range start_date end_date
  let base_weights := build_distribution_weights months distribution_mode custom_month_weights
  let prod_map := pyDict (products.map (fun p => (p.id, p)))
  let monthly_rows := quantities.flatMap (fun pq =>
    match dictGet prod_map pq.1 with
    | none => []
    | some p =>
      let weights_for_pid :=
        if distribution_mode = "Custom" ∧
            optDictTruthyContains per_product_month_weights pq.1 then
          build_distribution_weights months "Custom"
            (some (dictGetD (per_product_month_weights.getD []) pq.1 []))
        else base_weights
      (distribute_quantity pq.2 weights_for_pid).map (fun mq =>
        let econ := revenue_for_product_month p mq.2
        ⟨mq.1, pq.1, p.name, p.category, mq.2, p.price_bdt, Products.effective_price p,
          econ.gross_revenue, econ.effective_revenue, econ.total_unit_cost,
          econ.net_profit⟩))
  let size_rows := quantities.flatMap (fun pq =>
    match dictGet prod_map pq.1 with
    | none => []
    | some p =>
      if optDictTruthyContains size_breakdown pq.1 then
        (dictGetD (size_breakdown.getD []) pq.1 []).map (fun sq =>
          let econ := revenue_for_product_month p sq.2
          ⟨pq.1, p.name, sq.1, sq.2, econ.gross_revenue, econ.effective_revenue,
            econ.total_unit_cost, econ.net_profit⟩)
      else [])
  (monthly_rows, product_summary monthly_rows, size_rows)

/-- Embedding of campaign_totals (modules/revenue.py, lines 231-247), as the
dict of exactly five keys the code builds. -/
def campaign_totals (monthly_rows : List MonthlyRow) : List (String × ℚ) :=
  if monthly_rows.isEmpty then
    [("campaign_qty", 0), ("gross_revenue", 0), ("effective_revenue", 0),
     ("total_cost", 0), ("net_profit", 0)]
  else
    [("campaign_qty", (monthly_rows.map MonthlyRow.qty).sum),
     ("gross_revenue", (monthly_rows.map MonthlyRow.gross_revenue).sum),
     ("effective_revenue", (monthly_rows.map MonthlyRow.effective_revenue).sum),
     ("total_cost", (monthly_rows.map MonthlyRow.total_cost).sum),
     ("net_profit", (monthly_rows.map MonthlyRow.net_profit).sum)]

/-- Every summary row carries the zero-guarded margins of its own sums. -/
theorem product_summary_margins (rows : List MonthlyRow) :
    ∀ srow ∈ product_summary rows,
      srow.gross_margin_pct = (srow.gross_revenue - srow.total_cost) /
          (if srow.gross_revenue = 0 then 1 else srow.gross_revenue) * 100 ∧
      srow.net_margin_pct = srow.net_profit /
          (if srow.effective_revenue = 0 then 1 else srow.effective_revenue) * 100 := by
  intro srow hsrow
  obtain ⟨k, hk, rfl⟩ := List.mem_map.mp hsrow
  exact ⟨rfl, rfl⟩

end Revenue

/- ============================================================
   Claim C6 — summary margins
   ============================================================ -/

/-- Concrete evaluation used by the C6 artefacts: a product with price 0 but
unit cost 5, quantity 1, over a one-month campaign, produces exactly one
summary row, whose margins are (0 - 5)/1 * 100 = -500. -/
theorem zero_price_summary_eq :
    (Revenue.build_campaign_forecast
        [⟨"p1", none, "ZeroPrice", "Misc", 0, 5, 0, 0, 0, 0, 0, true, "", true⟩]
        [("p1", 1)] ⟨2026, 1, 1⟩ ⟨2026, 1, 1⟩ "Uniform" none none none).2.1 =
      [⟨"p1", "ZeroPrice", "Misc", 1, 0, 0, 5, -5, -500, -500⟩] := by
  have hm : Revenue.month_range ⟨2026, 1, 1⟩ ⟨2026, 1, 1⟩ = ["2026-01"] := by decide
  have hrows : (Revenue.build_campaign_forecast
      [⟨"p1", none, "ZeroPrice", "Misc", 0, 5, 0, 0, 0, 0, 0, true, "", true⟩]
      [("p1", 1)] ⟨2026, 1, 1⟩ ⟨2026, 1, 1⟩ "Uniform" none none none).1 =
      [⟨"2026-01", "p1", "ZeroPrice", "Misc", 1, 0, 0, 0, 0, 5, -5⟩] := by
    simp only [Revenue.build_campaign_forecast, hm, Revenue.build_distribution_weights,
      Revenue.bdwRaw, Revenue.distribute_quantity, Revenue.revenue_for_product_month,
      Products.effective_price, Products.total_unit_cost, Products.unit_net_profit,
      pyDict, dictInsert, dictGet, dictGetD, optDictTruthyContains,
      List.flatMap_cons, List.flatMap_nil, List.foldl_cons, List.foldl_nil,
      List.map_cons, List.map_nil, List.zip_cons_cons, List.zip_nil_right,
      List.length_cons, List.length_nil, List.replicate, List.sum_cons, List.sum_nil,
      List.append_nil, List.nil_append]
    norm_num
    simp only [dictInsert, List.map_cons, List.map_nil]
    norm_num
  rw [show (Revenue.build_campaign_forecast
      [⟨"p1", none, "ZeroPrice", "Misc", 0, 5, 0, 0, 0, 0, 0, true, "", true⟩]
      [("p1", 1)] ⟨2026, 1, 1⟩ ⟨2026, 1, 1⟩ "Uniform" none none none).2.1 =
      Revenue.product_summary ((Revenue.build_campaign_forecast
      [⟨"p1", none, "ZeroPrice", "Misc", 0, 5, 0, 0, 0, 0, 0, true, "", true⟩]
      [("p1", 1)] ⟨2026, 1, 1⟩ ⟨2026, 1, 1⟩ "Uniform" none none none).1) from rfl]
  rw [hrows]
  simp only [Revenue.product_summary, Revenue.groupKeys, Revenue.monthlyKey,
    List.map_cons, List.map_nil, List.foldl_cons, List.foldl_nil, List.not_mem_nil,
    if_false, List.nil_append, List.filter_cons, List.filter_nil, List.sum_cons,
    List.sum_nil]
  norm_num

/-- C6 (counterexample): the margin of a zero-revenue group is not 0 in
general: a product with price 0 but positive unit costs, quantity 1 over a
one-month campaign, yields a summary row with gross_revenue = 0 and
gross_margin_% = (0 - 5)/1 * 100 = -500 (and likewise net_margin_% = -500),
not 0. -/
theorem C6_counterexample :
    (Revenue.build_campaign_forecast
        [⟨"p1", none, "ZeroPrice", "Misc", 0, 5, 0, 0, 0, 0, 0, true, "", true⟩]
        [("p1", 1)] ⟨2026, 1, 1⟩ ⟨2026, 1, 1⟩ "Uniform" none none none).2.1 =
      [⟨"p1", "ZeroPrice", "Misc", 1, 0, 0, 5, -5, -500, -500⟩] ∧
    (-500 : ℚ) ≠ 0 := by
  refine ⟨zero_price_summary_eq, ?_⟩
  norm_num

/-- C6 (amended): in the product summary of build_campaign_forecast,
gross_margin_% is (gross_revenue - total_cost)/gross_revenue and net_margin_%
is net_profit/effective_revenue (as percentages), with a zero denominator
replaced by 1 before dividing; a zero-denominator group therefore gets
numerator × 100 as its margin (which is 0 exactly when the numerator is 0)
rather than a division failure. -/
theorem C6_summary_margins_amended
    (products : List Products.Product) (quantities : List (String × ℚ))
    (start_date end_date : PyDate) (distribution_mode : String)
    (custom_month_weights : Option (List (String × ℚ)))
    (per_product_month_weights : Option (List (String × List (String × ℚ))))
    (size_breakdown : Option (List (String × List (String × ℚ)))) :
    ∀ srow ∈ (Revenue.build_campaign_forecast products quantities start_date end_date
        distribution_mode custom_month_weights per_product_month_weights
        size_breakdown).2.1,
      srow.gross_margin_pct = (srow.gross_revenue - srow.total_cost) /
          (if srow.gross_revenue = 0 then 1 else srow.gross_revenue) * 100 ∧
      srow.net_margin_pct = srow.net_profit /
          (if srow.effective_revenue = 0 then 1 else srow.effective_revenue) * 100 :=
  fun srow h => Revenue.product_summary_margins _ srow h

/-- C6 (witness): the amended claim instantiated at the zero-price product's
single summary row: its margins satisfy both zero-guarded formulas. -/
theorem C6_summary_margins_witness :
    (⟨"p1", "ZeroPrice", "Misc", 1, 0, 0, 5, -5, -500, -500⟩ :
        Revenue.SummaryRow).gross_margin_pct =
      ((⟨"p1", "ZeroPrice", "Misc", 1, 0, 0, 5, -5, -500, -500⟩ :
        Revenue.SummaryRow).gross_revenue -
        (⟨"p1", "ZeroPrice", "Misc", 1, 0, 0, 5, -5, -500, -500⟩ :
        Revenue.SummaryRow).total_cost) /
        (if (⟨"p1", "ZeroPrice", "Misc", 1, 0, 0, 5, -5, -500, -500⟩ :
            Revenue.SummaryRow).gross_revenue = 0 then 1
         else (⟨"p1", "ZeroPrice", "Misc", 1, 0, 0, 5, -5, -500, -500⟩ :
            Revenue.SummaryRow).gross_revenue) * 100 ∧
    (⟨"p1", "ZeroPrice", "Misc", 1, 0, 0, 5, -5, -500, -500⟩ :
        Revenue.SummaryRow).net_margin_pct =
      (⟨"p1", "ZeroPrice", "Misc", 1, 0, 0, 5, -5, -500, -500⟩ :
        Revenue.SummaryRow).net_profit /
        (if (⟨"p1", "ZeroPrice", "Misc", 1, 0, 0, 5, -5, -500, -500⟩ :
            Revenue.SummaryRow).effective_revenue = 0 then 1
         else (⟨"p1", "ZeroPrice", "Misc", 1, 0, 0, 5, -5, -500, -500⟩ :
            Revenue.SummaryRow).effective_revenue) * 100 :=
  C6_summary_margins_amended
    [⟨"p1", none, "ZeroPrice", "Misc", 0, 5, 0, 0, 0, 0, 0, true, "", true⟩]
    [("p1", 1)] ⟨2026, 1, 1⟩ ⟨2026, 1, 1⟩ "Uniform" none none none
    ⟨"p1", "ZeroPrice", "Misc", 1, 0, 0, 5, -5, -500, -500⟩
    (zero_price_summary_eq ▸ List.mem_singleton.mpr rfl)

/- ============================================================
   Claim C8 — empty and unknown-product inputs
   ============================================================ -/

theorem mem_dictKeys_dictInsert {α : Type} (k : String) (v : α) (a : String) :
    ∀ d : List (String × α),
      (a ∈ dictKeys (dictInsert k v d) ↔ a ∈ dictKeys d ∨ a = k) := by
  intro d
  induction d with
  | nil => simp [dictInsert, dictKeys]
  | cons p rest ih =>
    obtain ⟨k', v'⟩ := p
    by_cases hk : k' = k
    · subst hk
      have hstep : dictInsert k' v ((k', v') :: rest) = (k', v) :: rest := by
        rw [dictInsert, if_pos rfl]
      rw [hstep]
      simp only [dictKeys, List.map_cons, List.mem_cons]
      tauto
    · have hstep : dictInsert k v ((k', v') :: rest) = (k', v') :: dictInsert k v rest := by
        rw [dictInsert, if_neg hk]
      rw [hstep]
      simp only [dictKeys, List.map_cons, List.mem_cons] at *
      tauto

theorem mem_dictKeys_pyDict {α : Type} (ps : List (String × α)) (a : String) :
    a ∈ dictKeys (pyDict ps) ↔ a ∈ ps.map Prod.fst := by
  suffices h : ∀ acc, (a ∈ dictKeys (ps.foldl (fun d p => dictInsert p.1 p.2 d) acc) ↔
      a ∈ dictKeys acc ∨ a ∈ ps.map Prod.fst) by
    simpa [pyDict, dictKeys] using h []
  induction ps with
  | nil => intro acc; simp
  | cons p t ih =>
    intro acc
    rw [List.foldl_cons]
    show a ∈ dictKeys (t.foldl (fun d p => dictInsert p.1 p.2 d) (dictInsert p.1 p.2 acc)) ↔ _
    rw [ih (dictInsert p.1 p.2 acc), mem_dictKeys_dictInsert]
    simp only [List.map_cons, List.mem_cons]
    tauto

/-- Looking up a product id absent from the catalogue in the product map
fails. -/
theorem dictGet_prod_map_none (products : List Products.Product) (pid : String)
    (h : pid ∉ products.map Products.Product.id) :
    dictGet (pyDict (products.map (fun p => (p.id, p)))) pid = none := by
  rw [dictGet_eq_none_iff]
  intro hmem
  apply h
  have := (mem_dictKeys_pyDict _ _).mp hmem
  simpa [List.map_map, Function.comp] using this

/-- C8: with an empty quantities map build_campaign_forecast returns three
empty tables; campaign_totals of an empty monthly table is the all-zero dict
with exactly the five expected keys; and a quantity entry whose product id is
not in the catalogue is silently dropped, contributing no rows to any of the
three tables. -/
theorem C8_empty_and_unknown
    (products : List Products.Product) (quantities : List (String × ℚ))
    (start_date end_date : PyDate) (distribution_mode : String)
    (custom_month_weights : Option (List (String × ℚ)))
    (per_product_month_weights : Option (List (String × List (String × ℚ))))
    (size_breakdown : Option (List (String × List (String × ℚ))))
    (pid : String) (q : ℚ) (hpid : pid ∉ products.map Products.Product.id) :
    Revenue.build_campaign_forecast products [] start_date end_date
        distribution_mode custom_month_weights per_product_month_weights
        size_breakdown = ([], [], []) ∧
    Revenue.campaign_totals [] =
      [("campaign_qty", 0), ("gross_revenue", 0), ("effective_revenue", 0),
       ("total_cost", 0), ("net_profit", 0)] ∧
    Revenue.build_campaign_forecast products ((pid, q) :: quantities) start_date
        end_date distribution_mode custom_month_weights per_product_month_weights
        size_breakdown =
      Revenue.build_campaign_forecast products quantities start_date end_date
        distribution_mode custom_month_weights per_product_month_weights
        size_breakdown := by
  refine ⟨rfl, rfl, ?_⟩
  simp only [Revenue.build_campaign_forecast, List.flatMap_cons,
    dictGet_prod_map_none products pid hpid, List.nil_append]

/-- C8 (witness): the claim instantiated at a one-product catalogue and an
unknown product id "ghost". -/
theorem C8_empty_and_unknown_witness :
    Revenue.build_campaign_forecast
        [⟨"p1", none, "Tee", "Apparel", 100, 40, 10, 5, 5, 0, 0, true, "", true⟩]
        [] ⟨2026, 1, 1⟩ ⟨2026, 2, 1⟩ "Uniform" none none none = ([], [], []) ∧
    Revenue.campaign_totals [] =
      [("campaign_qty", 0), ("gross_revenue", 0), ("effective_revenue", 0),
       ("total_cost", 0), ("net_profit", 0)] ∧
    Revenue.build_campaign_forecast
        [⟨"p1", none, "Tee", "Apparel", 100, 40, 10, 5, 5, 0, 0, true, "", true⟩]
        [("ghost", 250), ("p1", 10)] ⟨2026, 1, 1⟩ ⟨2026, 2, 1⟩ "Uniform" none none none =
      Revenue.build_campaign_forecast
        [⟨"p1", none, "Tee", "Apparel", 100, 40, 10, 5, 5, 0, 0, true, "", true⟩]
        [("p1", 10)] ⟨2026, 1, 1⟩ ⟨2026, 2, 1⟩ "Uniform" none none none :=
  C8_empty_and_unknown _ [("p1", 10)] _ _ _ _ _ _ "ghost" 250 (by decide)

/- ============================================================
   Scenario overlay engine (modules/scenario_engine.py)
   ============================================================ -/

/-- Python truthiness `if d:` for an optional dict parameter. -/
def optDictTruthy {α : Type} (d : Option (List (String × α))) : Bool :=
  match d with
  | none => false
  | some l => !l.isEmpty

namespace ScenarioEngine

/-- Dataclass `ScenarioProduct` (scenario_engine.py, lines 33-54). -/
structure ScenarioProduct where
  id : String
  name : String
  category : String
  price_bdt : ℚ
  manufacturing_cost_bdt : ℚ
  packaging_cost_bdt : ℚ
  shipping_cost_bdt : ℚ
  marketing_cost_bdt : ℚ
  return_rate : ℚ
  discount_rate : ℚ
  vat_included : Bool := true
  notes : String := ""
  cost_override_total_bdt : Option ℚ := none
deriving DecidableEq, Repr

/-- effective_price (scenario_engine.py, lines 57-60). -/
def effective_price (p : ScenarioProduct) : ℚ :=
  p.price_bdt * (1 - p.discount_rate) * (1 - p.return_rate)

/-- total_unit_cost (scenario_engine.py, lines 63-71): a present cost override
replaces the sum of the four cost components wholesale. -/
def total_unit_cost (p : ScenarioProduct) : ℚ :=
  match p.cost_override_total_bdt with
  | some c => c
  | none => p.manufacturing_cost_bdt + p.packaging_cost_bdt +
      p.shipping_cost_bdt + p.marketing_cost_bdt

/-- unit_net_profit (scenario_engine.py, lines 74-75). -/
def unit_net_profit (p : ScenarioProduct) : ℚ :=
  effective_price p - total_unit_cost p

/-- One scenario product-override row (a `scenario_product_overrides` DB
dict); a null field inherits the base value.  The discount and return-rate
overrides are stored as percentages. -/
structure POverride where
  product_id : String
  price_override : Option ℚ := none
  discount_override : Option ℚ := none
  return_rate_override : Option ℚ := none
  cost_override : Option ℚ := none
  qty_override : Option ℚ := none
deriving DecidableEq, Repr

/-- The loop body of apply_product_overrides for one product
(scenario_engine.py, lines 135-170): start from catalogue values, then apply
each non-null override field independently (percentages divided by 100). -/
def applyOverrideToProduct (p : Products.Product) (o : Option POverride) :
    ScenarioProduct :=
  let price_bdt := match o with
    | some ov => match ov.price_override with
      | some v => v
      | none => p.price_bdt
    | none => p.price_bdt
  let discount_rate := match o with
    | some ov => match ov.discount_override with
      | some v => v / 100
      | none => p.discount_rate
    | none => p.discount_rate
  let return_rate := match o with
    | some ov => match ov.return_rate_override with
      | some v => v / 100
      | none => p.return_rate
    | none => p.return_rate
  let cost_override_total := match o with
    | some ov => ov.cost_override
    | none => none
  ⟨p.id, p.name, p.category, price_bdt, p.manufacturing_cost_bdt,
    p.packaging_cost_bdt, p.shipping_cost_bdt, p.marketing_cost_bdt,
    return_rate, discount_rate, p.vat_included, p.notes, cost_override_total⟩

/-- Embedding of apply_product_overrides (scenario_engine.py, lines 125-172):
the override rows are first keyed by product id (last row wins on a duplicate
id, as in the Python dict build), then every catalogue product is mapped to a
ScenarioProduct. -/
def apply_product_overrides (products : List Products.Product)
    (overrides : List POverride) : List (String × ScenarioProduct) :=
  let ov_map := pyDict (overrides.map (fun o => (o.product_id, o)))
  pyDict (products.map (fun p => (p.id, applyOverrideToProduct p (dictGet ov_map p.id))))

/-- Embedding of apply_quantity_overrides (scenario_engine.py, lines 175-187):
a non-null qty_override replaces (or adds) the entry for that product. -/
def apply_quantity_overrides (base_quantities : List (String × ℚ))
    (overrides : List POverride) : List (String × ℚ) :=
  overrides.foldl (fun out o =>
    match o.qty_override with
    | some q => dictInsert o.product_id q out
    | none => out) base_quantities

/-- Line 210: `distribution_mode_override or campaign.get("distribution_mode",
"Uniform")`.  `campaignMode` stands for the campaign's stored mode with the
dict-get default already applied; an empty override string is falsy and falls
through, like None. -/
def resolvedMode (distribution_mode_override : Option String)
    (campaignMode : String) : String :=
  match distribution_mode_override with
  | some s => if s = "" then campaignMode else s
  | none => campaignMode

/-- The per-product weight choice of build_scenario_forecast
(scenario_engine.py, lines 249-284): in Custom mode the scenario-level
override wins (when truthy), then the per-product weights stored for the
campaign, then the legacy campaign-level weights, then a uniform all-ones
custom map; any non-Custom mode uses its canonical curve. -/
def scenario_weights_for_pid (months : List String) (distribution_mode : String)
    (custom_weights_override : Option (List (String × ℚ)))
    (base_product_weights : List (String × List (String × ℚ)))
    (base_weights : List (String × ℚ)) (pid : String) : List (String × ℚ) :=
  if distribution_mode = "Custom" then
    if optDictTruthy custom_weights_override then
      Revenue.build_distribution_weights months "Custom" custom_weights_override
    else if base_product_weights ≠ [] ∧ (dictGet base_product_weights pid).isSome then
      Revenue.build_distribution_weights months "Custom"
        (some (dictGetD base_product_weights pid []))
    else if base_weights ≠ [] then
      Revenue.build_distribution_weights months "Custom" (some base_weights)
    else
      Revenue.build_distribution_weights months "Custom"
        (some (months.map (fun m => (m, 1))))
  else
    Revenue.build_distribution_weights months distribution_mode none

/-- One row of the scenario monthly table (display-only month_nice omitted). -/
structure ScMonthlyRow where
  month : String
  product_id : String
  product_name : String
  category : String
  qty : ℚ
  price_bdt : ℚ
  effective_price_bdt : ℚ
  gross_revenue : ℚ
  effective_revenue : ℚ
  total_cost : ℚ
  net_profit : ℚ
deriving DecidableEq, Repr

/-- The monthly-row loop of build_scenario_forecast (scenario_engine.py,
lines 240-331, monthly part): products absent from the scenario product map
are skipped. -/
def scenario_monthly_rows (months : List String) (distribution_mode : String)
    (custom_weights_override : Option (List (String × ℚ)))
    (base_product_weights : List (String × List (String × ℚ)))
    (base_weights : List (String × ℚ))
    (sp_map : List (String × ScenarioProduct))
    (quantities : List (String × ℚ)) : List ScMonthlyRow :=
  quantities.flatMap (fun pq =>
    match dictGet sp_map pq.1 with
    | none => []
    | some p =>
      let weights_for_pid := scenario_weights_for_pid months distribution_mode
        custom_weights_override base_product_weights base_weights pq.1
      (Revenue.distribute_quantity pq.2 weights_for_pid).map (fun mq =>
        ⟨mq.1, pq.1, p.name, p.category, mq.2, p.price_bdt, effective_price p,
          p.price_bdt * mq.2, effective_price p * mq.2, total_unit_cost p * mq.2,
          unit_net_profit p * mq.2⟩))

/-- The size-row loop of build_scenario_forecast (scenario_engine.py, lines
289-311).  Each base size quantity is scaled by
`total_qty / (sum of the base size quantities or 1)`; the `if base_total`
guard of line 295 is unreachable because `or 1` never leaves base_total
falsy.  Note that the Python function builds this list but never returns or
otherwise uses it, so it is modelled as its own definition. -/
def scenario_size_rows (base_sizes : List (String × List (String × ℚ)))
    (sp_map : List (String × ScenarioProduct))
    (quantities : List (String × ℚ)) : List Revenue.SizeRow :=
  quantities.flatMap (fun pq =>
    match dictGet sp_map pq.1 with
    | none => []
    | some p =>
      if base_sizes ≠ [] ∧ (dictGet base_sizes pq.1).isSome then
        (dictGetD base_sizes pq.1 []).map (fun sq =>
          let base_total_raw := ((dictGetD base_sizes pq.1 []).map Prod.snd).sum
          let base_total : ℚ := if base_total_raw = 0 then 1 else base_total_raw
          let adj_qty := sq.2 * (pq.2 / base_total)
          ⟨pq.1, p.name, sq.1, adj_qty, p.price_bdt * adj_qty,
            effective_price p * adj_qty, total_unit_cost p * adj_qty,
            unit_net_profit p * adj_qty⟩)
      else [])

def scMonthlyKey (r : ScMonthlyRow) : String × String × String :=
  (r.product_id, r.product_name, r.category)

/-- The scenario product summary (scenario_engine.py, lines 335-356), the
same groupby-and-margins computation as the campaign builder. -/
def scenario_product_summary (rows : List ScMonthlyRow) : List Revenue.SummaryRow :=
  (Revenue.groupKeys (rows.map scMonthlyKey)).map (fun k =>
    let grp := rows.filter (fun r => scMonthlyKey r = k)
    let gq := (grp.map ScMonthlyRow.qty).sum
    let gr := (grp.map ScMonthlyRow.gross_revenue).sum
    let er := (grp.map ScMonthlyRow.effective_revenue).sum
    let tc := (grp.map ScMonthlyRow.total_cost).sum
    let np := (grp.map ScMonthlyRow.net_profit).sum
    ⟨k.1, k.2.1, k.2.2, gq, gr, er, tc, np,
      (gr - tc) / (if gr = 0 then 1 else gr) * 100,
      np / (if er = 0 then 1 else er) * 100⟩)

/-- One opex-library row as the scenario engine reads it (a raw DB dict whose
start/end months may be null). -/
structure LibOpexItem where
  id : String
  cost_bdt : ℚ
  is_one_time : Bool
  start_month : Option String
  end_month : Option String
deriving DecidableEq, Repr

/-- One scenario opex-override row. -/
structure OOverride where
  opex_item_id : String
  cost_override : Option ℚ := none
deriving DecidableEq, Repr

/-- The OPEX block of build_scenario_forecast (scenario_engine.py, lines
369-404): a scenario cost override replaces an item's cost wholesale; a
one-time item adds its cost once, unconditionally; a recurring item adds its
cost once per campaign month inside its [start, end] window, the window
defaulting to the campaign's first/last month when unset.  `months` is never
empty at the call site (month_range is never empty), so `headI`/`getLastD ""`
faithfully stand for Python's `months[0]`/`months[-1]`. -/
def scenario_opex_total (months : List String) (lib_items : List LibOpexItem)
    (scenario_opex_overrides : List OOverride) : ℚ :=
  let ov_map := pyDict (scenario_opex_overrides.map (fun o => (o.opex_item_id, o)))
  lib_items.foldl (fun acc it =>
    let base_cost := match dictGet ov_map it.id with
      | some o => match o.cost_override with
        | some c => c
        | none => it.cost_bdt
      | none => it.cost_bdt
    if it.is_one_time then acc + base_cost
    else
      let start_m := it.start_month.getD months.headI
      let end_m := it.end_month.getD (months.getLastD "")
      months.foldl (fun a m => if start_m ≤ m ∧ m ≤ end_m then a + base_cost else a)
        acc) 0

/-- Embedding of build_scenario_forecast (scenario_engine.py, lines 194-407).
The DB reads become parameters (see the per-piece definitions above); the
top-level `weights` local of lines 230-235 is computed by the Python code but
never read afterwards (every product recomputes its own weights in the loop),
so it has no counterpart; the dead `size_rows` list is `scenario_size_rows`.
Returns (monthly rows, product summary, totals dict). -/
def build_scenario_forecast
    (products : List Products.Product)
    (campaignStart campaignEnd : PyDate)
    (campaignMode : String)
    (scenario_product_overrides : List POverride)
    (scenario_opex_overrides : List OOverride)
    (distribution_mode_override : Option String)
    (custom_weights_override : Option (List (String × ℚ)))
    (base_quantities : List (String × ℚ))
    (base_weights : List (String × ℚ))
    (base_product_weights : List (String × List (String × ℚ)))
    (base_sizes : List (String × List (String × ℚ)))
    (lib_items : List LibOpexItem) :
    List ScMonthlyRow × List Revenue.SummaryRow × List (String × ℚ) :=
  let distribution_mode := resolvedMode distribution_mode_override campaignMode
  let months := Revenue.month_range campaignStart campaignEnd
  let sp_map := apply_product_overrides products scenario_product_overrides
  let quantities := apply_quantity_overrides base_quantities scenario_product_overrides
  let monthly_rows := scenario_monthly_rows months distribution_mode
    custom_weights_override base_product_weights base_weights sp_map quantities
  let summary := scenario_product_summary monthly_rows
  let net_profit_variable := (monthly_rows.map ScMonthlyRow.net_profit).sum
  let opex_total := scenario_opex_total months lib_items scenario_opex_overrides
  let totals : List (String × ℚ) :=
    [("campaign_qty", (monthly_rows.map ScMonthlyRow.qty).sum),
     ("gross_revenue", (monthly_rows.map ScMonthlyRow.gross_revenue).sum),
     ("effective_revenue", (monthly_rows.map ScMonthlyRow.effective_revenue).sum),
     ("total_cost", (monthly_rows.map ScMonthlyRow.total_cost).sum),
     ("net_profit_variable", net_profit_variable),
     ("opex_total", opex_total),
     ("net_profit_after_opex", net_profit_variable - opex_total)]
  (monthly_rows, summary, totals)

end ScenarioEngine

/- ============================================================
   Claim C4 — product override application
   ============================================================ -/

/-- C4: apply_product_overrides maps every catalogue product (under distinct
catalogue ids) to the ScenarioProduct obtained by applying its override row
(keyed by product id) field by field: price, discount (a stored percentage,
divided by 100), return rate (percentage, divided by 100) and the total-cost
override are each applied independently and only when non-null, unset fields
inherit the catalogue value, a product without an override row keeps all
catalogue values, and a present cost override replaces the sum of the four
cost components wholesale in total_unit_cost. -/
theorem C4_product_overrides (products : List Products.Product)
    (overrides : List ScenarioEngine.POverride) (p : Products.Product)
    (hp : p ∈ products) (hnd : (products.map Products.Product.id).Nodup) :
    dictGet (ScenarioEngine.apply_product_overrides products overrides) p.id =
      some (ScenarioEngine.applyOverrideToProduct p
        (dictGet (pyDict (overrides.map (fun o => (o.product_id, o)))) p.id)) ∧
    (∀ o : ScenarioEngine.POverride,
      (ScenarioEngine.applyOverrideToProduct p (some o)).price_bdt =
        (match o.price_override with
         | some v => v
         | none => p.price_bdt) ∧
      (ScenarioEngine.applyOverrideToProduct p (some o)).discount_rate =
        (match o.discount_override with
         | some v => v / 100
         | none => p.discount_rate) ∧
      (ScenarioEngine.applyOverrideToProduct p (some o)).return_rate =
        (match o.return_rate_override with
         | some v => v / 100
         | none => p.return_rate) ∧
      ScenarioEngine.total_unit_cost (ScenarioEngine.applyOverrideToProduct p (some o)) =
        (match o.cost_override with
         | some c => c
         | none => p.manufacturing_cost_bdt + p.packaging_cost_bdt +
             p.shipping_cost_bdt + p.marketing_cost_bdt)) ∧
    ScenarioEngine.applyOverrideToProduct p none =
      ⟨p.id, p.name, p.category, p.price_bdt, p.manufacturing_cost_bdt,
        p.packaging_cost_bdt, p.shipping_cost_bdt, p.marketing_cost_bdt,
        p.return_rate, p.discount_rate, p.vat_included, p.notes, none⟩ := by
  refine ⟨?_, fun o => ⟨rfl, rfl, rfl, rfl⟩, rfl⟩
  unfold ScenarioEngine.apply_product_overrides
  have hkeys : ((products.map (fun q => (q.id, ScenarioEngine.applyOverrideToProduct q
      (dictGet (pyDict (overrides.map (fun o => (o.product_id, o)))) q.id)))).map
        Prod.fst).Nodup := by
    simpa [List.map_map, Function.comp] using hnd
  rw [pyDict_eq_self hkeys]
  exact dictGet_eq_of_mem_nodup (List.mem_map.mpr ⟨p, hp, rfl⟩) hkeys

/-- C4 (witness): the claim at a product with cost components
800 + 100 + 150 + 120 = 1170 and a cost override of 500: the scenario
total_unit_cost is 500, not 1670, and the untouched fields inherit. -/
theorem C4_product_overrides_witness :
    ScenarioEngine.total_unit_cost (ScenarioEngine.applyOverrideToProduct
        ⟨"p1", none, "Jacket", "Apparel", 2000, 800, 100, 150, 120, 0, 0, true, "", true⟩
        (some ⟨"p1", none, none, none, some 500, none⟩)) = 500 ∧
    (ScenarioEngine.applyOverrideToProduct
        ⟨"p1", none, "Jacket", "Apparel", 2000, 800, 100, 150, 120, 0, 0, true, "", true⟩
        (some ⟨"p1", none, none, none, some 500, none⟩)).price_bdt = 2000 ∧
    dictGet (ScenarioEngine.apply_product_overrides
        [⟨"p1", none, "Jacket", "Apparel", 2000, 800, 100, 150, 120, 0, 0, true, "", true⟩]
        [⟨"p1", none, none, none, some 500, none⟩]) "p1" =
      some (ScenarioEngine.applyOverrideToProduct
        ⟨"p1", none, "Jacket", "Apparel", 2000, 800, 100, 150, 120, 0, 0, true, "", true⟩
        (some ⟨"p1", none, none, none, some 500, none⟩)) := by
  have h := C4_product_overrides
    [⟨"p1", none, "Jacket", "Apparel", 2000, 800, 100, 150, 120, 0, 0, true, "", true⟩]
    [⟨"p1", none, none, none, some 500, none⟩]
    ⟨"p1", none, "Jacket", "Apparel", 2000, 800, 100, 150, 120, 0, 0, true, "", true⟩
    (List.mem_singleton.mpr rfl) (by decide)
  exact ⟨(h.2.1 ⟨"p1", none, none, none, some 500, none⟩).2.2.2,
    (h.2.1 ⟨"p1", none, none, none, some 500, none⟩).1, h.1⟩

/- ============================================================
   Claim C5 — scenario weight-selection precedence
   ============================================================ -/

theorem filter_flatMap_single {α β : Type} (key : β → String)
    (f : String × α → List β) (pid : String) (q : α)
    (hrows : ∀ x, ∀ r ∈ f x, key r = x.1) :
    ∀ l : List (String × α), (l.map Prod.fst).Nodup → (pid, q) ∈ l →
      (l.flatMap f).filter (fun r => key r = pid) = f (pid, q) := by
  intro l
  induction l with
  | nil => intro _ h; simp at h
  | cons x t ih =>
    intro hnd hmem
    obtain ⟨k, v⟩ := x
    simp only [List.map_cons, List.nodup_cons] at hnd
    rw [List.flatMap_cons, List.filter_append]
    rcases List.mem_cons.mp hmem with heq | htail
    · cases heq
      have h1 : (f (pid, q)).filter (fun r => key r = pid) = f (pid, q) := by
        apply List.filter_eq_self.mpr
        intro r hr
        simpa using hrows (pid, q) r hr
      have h2 : (t.flatMap f).filter (fun r => key r = pid) = [] := by
        apply List.filter_eq_nil_iff.mpr
        intro r hr
        obtain ⟨x, hx, hrx⟩ := List.mem_flatMap.mp hr
        have hkey := hrows x r hrx
        simp only [decide_eq_true_eq]
        rw [hkey]
        intro hx1
        exact hnd.1 (hx1 ▸ List.mem_map.mpr ⟨x, hx, rfl⟩)
      rw [h1, h2, List.append_nil]
    · have hk : k ≠ pid := by
        intro hkk
        exact hnd.1 (hkk ▸ List.mem_map.mpr ⟨(pid, q), htail, rfl⟩)
      have h1 : (f (k, v)).filter (fun r => key r = pid) = [] := by
        apply List.filter_eq_nil_iff.mpr
        intro r hr
        have hkey := hrows (k, v) r hr
        simp only [decide_eq_true_eq]
        rw [hkey]
        exact hk
      rw [h1, List.nil_append]
      exact ih hnd.2 htail

/-- C5: in build_scenario_forecast the monthly rows of each product are its
total quantity distributed by exactly this weight map: when the effective
distribution mode is Custom — (a) the scenario-level custom-weights override
(when present and non-empty), uniformly for all products, else (b) the
per-product weight map stored for the campaign, else (c) the legacy
campaign-level weights (when non-empty), else (d) a uniform all-ones custom
map; and for every non-Custom mode the mode's canonical curve, regardless of
any stored per-product weight data. -/
theorem C5_weight_precedence
    (products : List Products.Product)
    (campaignStart campaignEnd : PyDate) (campaignMode : String)
    (scenario_product_overrides : List ScenarioEngine.POverride)
    (scenario_opex_overrides : List ScenarioEngine.OOverride)
    (distribution_mode_override : Option String)
    (custom_weights_override : Option (List (String × ℚ)))
    (base_quantities : List (String × ℚ))
    (base_weights : List (String × ℚ))
    (base_product_weights : List (String × List (String × ℚ)))
    (base_sizes : List (String × List (String × ℚ)))
    (lib_items : List ScenarioEngine.LibOpexItem)
    (pid : String) (q : ℚ)
    (hnd : ((ScenarioEngine.apply_quantity_overrides base_quantities
        scenario_product_overrides).map Prod.fst).Nodup)
    (hmem : (pid, q) ∈ ScenarioEngine.apply_quantity_overrides base_quantities
        scenario_product_overrides)
    (hsp : (dictGet (ScenarioEngine.apply_product_overrides products
        scenario_product_overrides) pid).isSome) :
    ((ScenarioEngine.build_scenario_forecast products campaignStart campaignEnd
        campaignMode scenario_product_overrides scenario_opex_overrides
        distribution_mode_override custom_weights_override base_quantities
        base_weights base_product_weights base_sizes lib_items).1.filter
          (fun r => r.product_id = pid)).map (fun r => (r.month, r.qty)) =
      Revenue.distribute_quantity q
        (if ScenarioEngine.resolvedMode distribution_mode_override campaignMode
            = "Custom" then
          if optDictTruthy custom_weights_override then
            Revenue.build_distribution_weights
              (Revenue.month_range campaignStart campaignEnd) "Custom"
              custom_weights_override
          else if base_product_weights ≠ [] ∧
              (dictGet base_product_weights pid).isSome then
            Revenue.build_distribution_weights
              (Revenue.month_range campaignStart campaignEnd) "Custom"
              (some (dictGetD base_product_weights pid []))
          else if base_weights ≠ [] then
            Revenue.build_distribution_weights
              (Revenue.month_range campaignStart campaignEnd) "Custom"
              (some base_weights)
          else
            Revenue.build_distribution_weights
              (Revenue.month_range campaignStart campaignEnd) "Custom"
              (some ((Revenue.month_range campaignStart campaignEnd).map
                (fun m => (m, 1))))
        else
          Revenue.build_distribution_weights
            (Revenue.month_range campaignStart campaignEnd)
            (ScenarioEngine.resolvedMode distribution_mode_override campaignMode)
            none) := by
  obtain ⟨p, hp⟩ := Option.isSome_iff_exists.mp hsp
  have hfilter := filter_flatMap_single ScenarioEngine.ScMonthlyRow.product_id
    (fun pq =>
      match dictGet (ScenarioEngine.apply_product_overrides products
          scenario_product_overrides) pq.1 with
      | none => []
      | some p =>
        (Revenue.distribute_quantity pq.2
          (ScenarioEngine.scenario_weights_for_pid
            (Revenue.month_range campaignStart campaignEnd)
            (ScenarioEngine.resolvedMode distribution_mode_override campaignMode)
            custom_weights_override base_product_weights base_weights pq.1)).map
          (fun mq =>
            ⟨mq.1, pq.1, p.name, p.category, mq.2, p.price_bdt,
              ScenarioEngine.effective_price p, p.price_bdt * mq.2,
              ScenarioEngine.effective_price p * mq.2,
              ScenarioEngine.total_unit_cost p * mq.2,
              ScenarioEngine.unit_net_profit p * mq.2⟩))
    pid q ?_
    (ScenarioEngine.apply_quantity_overrides base_quantities
      scenario_product_overrides) hnd hmem
  · show ((ScenarioEngine.scenario_monthly_rows _ _ _ _ _ _ _).filter
        (fun r => r.product_id = pid)).map (fun r => (r.month, r.qty)) = _
    rw [ScenarioEngine.scenario_monthly_rows, hfilter]
    simp only [hp]
    rw [List.map_map]
    have hid : ∀ l : List (String × ℚ), List.map ((fun r : ScenarioEngine.ScMonthlyRow =>
        (r.month, r.qty)) ∘ (fun mq : String × ℚ =>
        ⟨mq.1, pid, p.name, p.category, mq.2, p.price_bdt, ScenarioEngine.effective_price p,
          p.price_bdt * mq.2, ScenarioEngine.effective_price p * mq.2,
          ScenarioEngine.total_unit_cost p * mq.2,
          ScenarioEngine.unit_net_profit p * mq.2⟩)) l = l := by
      intro l
      induction l with
      | nil => rfl
      | cons a t ihl =>
        rw [List.map_cons, ihl]
        rfl
    rw [hid]
    rfl
  · intro x r hr
    simp only [] at hr
    rcases hx : dictGet (ScenarioEngine.apply_product_overrides products
        scenario_product_overrides) x.1 with _ | px
    · rw [hx] at hr
      simp at hr
    · rw [hx] at hr
      obtain ⟨mq, _, rfl⟩ := List.mem_map.mp hr
      rfl

/-- C5 (witness): the precedence claim at a Custom-mode campaign with no
scenario override and no per-product weights: the legacy campaign-level
weights are the ones used. -/
theorem C5_weight_precedence_witness :
    ((ScenarioEngine.build_scenario_forecast
        [⟨"p1", none, "Tee", "Apparel", 100, 40, 10, 5, 5, 0, 0, true, "", true⟩]
        ⟨2026, 1, 1⟩ ⟨2026, 2, 1⟩ "Custom" [] [] none none
        [("p1", 4)] [("2026-01", 1), ("2026-02", 3)] [] [] []).1.filter
          (fun r => r.product_id = "p1")).map (fun r => (r.month, r.qty)) =
      Revenue.distribute_quantity 4
        (Revenue.build_distribution_weights
          (Revenue.month_range ⟨2026, 1, 1⟩ ⟨2026, 2, 1⟩) "Custom"
          (some [("2026-01", 1), ("2026-02", 3)])) :=
  C5_weight_precedence
    [⟨"p1", none, "Tee", "Apparel", 100, 40, 10, 5, 5, 0, 0, true, "", true⟩]
    ⟨2026, 1, 1⟩ ⟨2026, 2, 1⟩ "Custom" [] [] none none
    [("p1", 4)] [("2026-01", 1), ("2026-02", 3)] [] [] [] "p1" 4
    (by decide) (List.mem_singleton.mpr rfl) (by decide)

/- ============================================================
   Claim C7 — scenario size-breakdown scaling
   ============================================================ -/

/-- C7 (counterexample): the scaling denominator is the sum of the base
size-breakdown quantities, not the product's base campaign quantity.  With a
base campaign quantity of 10, base sizes S=2 and M=2 (sum 4) and a scenario
quantity override of 8, the emitted size quantities are 2 × (8/4) = 4 each —
not 2 × (8/10) = 1.6 as the claim's ratio would give. -/
theorem C7_counterexample :
    (ScenarioEngine.scenario_size_rows [("p1", [("S", 2), ("M", 2)])]
        (ScenarioEngine.apply_product_overrides
          [⟨"p1", none, "Tee", "Apparel", 100, 0, 0, 0, 0, 0, 0, true, "", true⟩]
          [⟨"p1", none, none, none, none, some 8⟩])
        (ScenarioEngine.apply_quantity_overrides [("p1", 10)]
          [⟨"p1", none, none, none, none, some 8⟩])).map
      (fun r => (r.size, r.qty)) = [("S", 4), ("M", 4)] ∧
    ((4 : ℚ) ≠ 2 * (8 / 10)) := by
  constructor
  · simp only [ScenarioEngine.scenario_size_rows, ScenarioEngine.apply_quantity_overrides,
      ScenarioEngine.apply_product_overrides, ScenarioEngine.applyOverrideToProduct,
      pyDict, dictInsert, dictGet, dictGetD, List.foldl_cons, List.foldl_nil,
      List.flatMap_cons, List.flatMap_nil, List.map_cons, List.map_nil,
      List.sum_cons, List.sum_nil, List.append_nil]
    norm_num
  · norm_num

/-- C7 (amended): in the scenario engine's size-row computation, for every
product present in the scenario product map, each emitted size row's quantity
equals the base size quantity multiplied by the ratio of the scenario's
effective total quantity for that product to the sum of the product's base
size-breakdown quantities (a zero sum being replaced by 1) — preserving the
shape of the size split, rescaled to the scenario quantity, under a quantity
override.  (The Python function builds this size-row list but never returns
it.) -/
theorem C7_size_scaling_amended
    (products : List Products.Product)
    (scenario_product_overrides : List ScenarioEngine.POverride)
    (base_quantities : List (String × ℚ))
    (base_sizes : List (String × List (String × ℚ)))
    (pid : String) (q : ℚ)
    (hnd : ((ScenarioEngine.apply_quantity_overrides base_quantities
        scenario_product_overrides).map Prod.fst).Nodup)
    (hmem : (pid, q) ∈ ScenarioEngine.apply_quantity_overrides base_quantities
        scenario_product_overrides)
    (hsp : (dictGet (ScenarioEngine.apply_product_overrides products
        scenario_product_overrides) pid).isSome) :
    ((ScenarioEngine.scenario_size_rows base_sizes
        (ScenarioEngine.apply_product_overrides products scenario_product_overrides)
        (ScenarioEngine.apply_quantity_overrides base_quantities
          scenario_product_overrides)).filter
        (fun r => r.product_id = pid)).map (fun r => (r.size, r.qty)) =
      (dictGetD base_sizes pid []).map (fun sq =>
        (sq.1, sq.2 * (q /
          (if ((dictGetD base_sizes pid []).map Prod.snd).sum = 0 then 1
           else ((dictGetD base_sizes pid []).map Prod.snd).sum)))) := by
  obtain ⟨p, hp⟩ := Option.isSome_iff_exists.mp hsp
  have hfilter := filter_flatMap_single Revenue.SizeRow.product_id
    (fun pq =>
      match dictGet (ScenarioEngine.apply_product_overrides products
          scenario_product_overrides) pq.1 with
      | none => []
      | some p =>
        if base_sizes ≠ [] ∧ (dictGet base_sizes pq.1).isSome then
          (dictGetD base_sizes pq.1 []).map (fun sq =>
            let base_total_raw := ((dictGetD base_sizes pq.1 []).map Prod.snd).sum
            let base_total : ℚ := if base_total_raw = 0 then 1 else base_total_raw
            let adj_qty := sq.2 * (pq.2 / base_total)
            ⟨pq.1, p.name, sq.1, adj_qty, p.price_bdt * adj_qty,
              ScenarioEngine.effective_price p * adj_qty,
              ScenarioEngine.total_unit_cost p * adj_qty,
              ScenarioEngine.unit_net_profit p * adj_qty⟩)
        else [])
    pid q ?_
    (ScenarioEngine.apply_quantity_overrides base_quantities
      scenario_product_overrides) hnd hmem
  · show ((ScenarioEngine.scenario_size_rows _ _ _).filter
        (fun r => r.product_id = pid)).map (fun r => (r.size, r.qty)) = _
    rw [ScenarioEngine.scenario_size_rows, hfilter]
    simp only [hp]
    by_cases hc : base_sizes ≠ [] ∧ (dictGet base_sizes pid).isSome
    · rw [if_pos hc, List.map_map]
      have hmapeq : ∀ l : List (String × ℚ),
          List.map ((fun r : Revenue.SizeRow => (r.size, r.qty)) ∘ (fun sq : String × ℚ =>
            let base_total_raw := ((dictGetD base_sizes pid []).map Prod.snd).sum
            let base_total : ℚ := if base_total_raw = 0 then 1 else base_total_raw
            let adj_qty := sq.2 * (q / base_total)
            ⟨pid, p.name, sq.1, adj_qty, p.price_bdt * adj_qty,
              ScenarioEngine.effective_price p * adj_qty,
              ScenarioEngine.total_unit_cost p * adj_qty,
              ScenarioEngine.unit_net_profit p * adj_qty⟩)) l =
          List.map (fun sq : String × ℚ =>
            (sq.1, sq.2 * (q /
              (if ((dictGetD base_sizes pid []).map Prod.snd).sum = 0 then 1
               else ((dictGetD base_sizes pid []).map Prod.snd).sum)))) l := by
        intro l
        induction l with
        | nil => rfl
        | cons a t ihl =>
          rw [List.map_cons, List.map_cons, ihl]
          rfl
      exact hmapeq _
    · rw [if_neg hc]
      have hdg : dictGetD base_sizes pid [] = ([] : List (String × ℚ)) := by
        by_cases hbs : base_sizes = []
        · subst hbs
          rfl
        · have hns : dictGet base_sizes pid = none := by
            rcases hopt : dictGet base_sizes pid with _ | v
            · rfl
            · exact absurd ⟨hbs, by rw [hopt]; rfl⟩ hc
          unfold dictGetD
          rw [hns]
          rfl
      rw [hdg]
      rfl
  · intro x r hr
    simp only [] at hr
    rcases hx : dictGet (ScenarioEngine.apply_product_overrides products
        scenario_product_overrides) x.1 with _ | px
    · rw [hx] at hr
      simp at hr
    · simp only [hx] at hr
      by_cases hcx : base_sizes ≠ [] ∧ (dictGet base_sizes x.1).isSome
      · rw [if_pos hcx] at hr
        obtain ⟨sq, _, rfl⟩ := List.mem_map.mp hr
        rfl
      · rw [if_neg hcx] at hr
        simp at hr

/-- C7 (witness): the amended claim at the counterexample's inputs: with base
sizes summing to 4 and a scenario quantity of 8, each size row's quantity is
its base size quantity times 8/4. -/
theorem C7_size_scaling_witness :
    ((ScenarioEngine.scenario_size_rows [("p1", [("S", 2), ("M", 2)])]
        (ScenarioEngine.apply_product_overrides
          [⟨"p1", none, "Tee", "Apparel", 100, 0, 0, 0, 0, 0, 0, true, "", true⟩]
          [⟨"p1", none, none, none, none, some 8⟩])
        (ScenarioEngine.apply_quantity_overrides [("p1", 10)]
          [⟨"p1", none, none, none, none, some 8⟩])).filter
        (fun r => r.product_id = "p1")).map (fun r => (r.size, r.qty)) =
      (dictGetD ([("p1", [("S", 2), ("M", 2)])] : List (String × List (String × ℚ)))
          "p1" []).map (fun sq =>
        (sq.1, sq.2 * ((8 : ℚ) /
          (if ((dictGetD ([("p1", [("S", 2), ("M", 2)])] :
                  List (String × List (String × ℚ))) "p1" []).map Prod.snd).sum = 0
           then 1
           else ((dictGetD ([("p1", [("S", 2), ("M", 2)])] :
                  List (String × List (String × ℚ))) "p1" []).map
              Prod.snd).sum)))) :=
  C7_size_scaling_amended
    [⟨"p1", none, "Tee", "Apparel", 100, 0, 0, 0, 0, 0, 0, true, "", true⟩]
    [⟨"p1", none, none, none, none, some 8⟩] [("p1", 10)]
    [("p1", [("S", 2), ("M", 2)])] "p1" 8
    (by decide) (List.mem_singleton.mpr rfl) (by decide)

/- ============================================================
   Claim C10 — one-time OPEX divergence between the two code paths
   ============================================================ -/

theorem filterMap_eq_nil_of_forall {α β : Type} (f : α → Option β) :
    ∀ l : List α, (∀ a ∈ l, f a = none) → l.filterMap f = [] := by
  intro l
  induction l with
  | nil => intro _; rfl
  | cons a t ih =>
    intro h
    rw [List.filterMap_cons, h a (by simp)]
    exact ih (fun x hx => h x (by simp [hx]))

namespace Opex

theorem opexRowForMonth_none_of_ne (item : OpexItem) (hot : item.is_one_time = true)
    (m : String) (hne : m ≠ item.start_month) : opexRowForMonth item m = none := by
  unfold opexRowForMonth
  split
  · rw [if_pos ⟨hot, hne⟩]
  · rfl

end Opex

theorem foldl_if_add_count (p : String → Prop) [DecidablePred p] (c : ℚ) :
    ∀ (l : List String) (a : ℚ),
      l.foldl (fun acc m => if p m then acc + c else acc) a =
        a + ((l.filter (fun m => p m)).length : ℚ) * c := by
  intro l
  induction l with
  | nil => intro a; simp
  | cons x t ih =>
    intro a
    rw [List.foldl_cons, List.filter_cons]
    by_cases hx : p x
    · rw [if_pos hx, if_pos (by simpa using hx), ih (a + c), List.length_cons]
      push_cast
      ring
    · rw [if_neg hx, if_neg (by simpa using hx)]
      exact ih a

/-- C10: in the scenario engine's OPEX step, a one-time item linked to the
campaign contributes its (possibly override-replaced) cost to opex_total
exactly once, unconditionally — with no reference to the campaign months at
all, hence even when its start month lies entirely outside them — whereas
expand_opex_for_campaign emits no row for a one-time item whose start month is
outside the campaign months; only a recurring item is restricted (in the
scenario engine) to the months inside its [start, end] window, the window
defaulting to the campaign's first/last month. -/
theorem C10_opex_divergence (s e : PyDate) (it : ScenarioEngine.LibOpexItem)
    (ovs : List ScenarioEngine.OOverride) (item : Opex.OpexItem) :
    (it.is_one_time = true →
      ScenarioEngine.scenario_opex_total (Revenue.month_range s e) [it] ovs =
        (match dictGet (pyDict (ovs.map (fun o => (o.opex_item_id, o)))) it.id with
         | some o => match o.cost_override with
           | some c => c
           | none => it.cost_bdt
         | none => it.cost_bdt)) ∧
    (item.is_one_time = true → item.start_month ∉ Revenue.month_range s e →
      Opex.expand_opex_for_campaign s e [item] = []) ∧
    (it.is_one_time = false →
      ScenarioEngine.scenario_opex_total (Revenue.month_range s e) [it] ovs =
        (((Revenue.month_range s e).filter (fun m =>
            it.start_month.getD (Revenue.month_range s e).headI ≤ m ∧
            m ≤ it.end_month.getD
              ((Revenue.month_range s e).getLastD ""))).length : ℚ) *
          (match dictGet (pyDict (ovs.map (fun o => (o.opex_item_id, o)))) it.id with
           | some o => match o.cost_override with
             | some c => c
             | none => it.cost_bdt
           | none => it.cost_bdt)) := by
  refine ⟨?_, ?_, ?_⟩
  · intro hot
    simp only [ScenarioEngine.scenario_opex_total, List.foldl_cons, List.foldl_nil,
      hot, if_true, zero_add]
  · intro hot hnin
    rw [Opex.expand_opex_single s e item]
    apply filterMap_eq_nil_of_forall
    intro m hm
    exact Opex.opexRowForMonth_none_of_ne item hot m (fun hmeq => hnin (hmeq ▸ hm))
  · intro hrec
    simp only [ScenarioEngine.scenario_opex_total, List.foldl_cons, List.foldl_nil,
      hrec, if_false]
    rw [foldl_if_add_count
      (fun m => it.start_month.getD (Revenue.month_range s e).headI ≤ m ∧
        m ≤ it.end_month.getD ((Revenue.month_range s e).getLastD ""))]
    rw [if_neg (by simp)]
    rw [zero_add]

/-- C10 (witness): a one-time item starting at "2030-01" — entirely outside a
2026 campaign — still contributes its full cost 7 once to the scenario opex
total, while expand_opex_for_campaign gives it no row; a fully open recurring
item of cost 3 is counted once per in-window campaign month. -/
theorem C10_opex_divergence_witness :
    ScenarioEngine.scenario_opex_total
        (Revenue.month_range ⟨2026, 1, 1⟩ ⟨2026, 3, 1⟩)
        [⟨"ox", 7, true, some "2030-01", none⟩] [] = 7 ∧
    Opex.expand_opex_for_campaign ⟨2026, 1, 1⟩ ⟨2026, 3, 1⟩
        [⟨"ox", "Launch shoot", "Ops", 7, "2030-01", none, true, ""⟩] = [] ∧
    ScenarioEngine.scenario_opex_total
        (Revenue.month_range ⟨2026, 1, 1⟩ ⟨2026, 3, 1⟩)
        [⟨"oy", 3, false, none, none⟩] [] =
      (((Revenue.month_range ⟨2026, 1, 1⟩ ⟨2026, 3, 1⟩).filter (fun m =>
          (Revenue.month_range ⟨2026, 1, 1⟩ ⟨2026, 3, 1⟩).headI ≤ m ∧
          m ≤ (Revenue.month_range ⟨2026, 1, 1⟩ ⟨2026, 3, 1⟩).getLastD "")).length : ℚ)
        * 3 :=
  ⟨(C10_opex_divergence ⟨2026, 1, 1⟩ ⟨2026, 3, 1⟩ ⟨"ox", 7, true, some "2030-01", none⟩
      [] ⟨"ox", "Launch shoot", "Ops", 7, "2030-01", none, true, ""⟩).1 rfl,
   (C10_opex_divergence ⟨2026, 1, 1⟩ ⟨2026, 3, 1⟩ ⟨"ox", 7, true, some "2030-01", none⟩
      [] ⟨"ox", "Launch shoot", "Ops", 7, "2030-01", none, true, ""⟩).2.1 rfl (by decide),
   (C10_opex_divergence ⟨2026, 1, 1⟩ ⟨2026, 3, 1⟩ ⟨"oy", 3, false, none, none⟩
      [] ⟨"ox", "Launch shoot", "Ops", 7, "2030-01", none, true, ""⟩).2.2 rfl⟩
